import Mathlib

/-!
# caddy2-reauth: authentication chain, resolver and directory client

A shallow embedding of `reauth.go`, `backend.go`, `failure.go`, the failure
handlers under `failures/`, the LDAP backend under `backends/ldap/` and the
configuration (fields, defaults, validation, JSON form) of the other backends.

Conventions of the embedding:

* a Go `error` is `Option Error` (`none` is `nil`);
* a Go `(string, error)` result is the pair `String × Option Error`;
* a method with a pointer receiver returns the updated receiver, a method with
  a value receiver does not;
* a run-time panic (nil interface call, nil pointer dereference, `make` of a
  channel that is too large, `WriteHeader` of an invalid code) is `none` of the
  outer `Option` of a result;
* the network and the standard library are parameters (`Net`, `Lib`);
* every call that leaves the program is appended to a trace.
-/

namespace Caddy2Reauth

/-! ## Values shared by all packages -/

/-- Go `error` values that the repository builds or receives. -/
inductive Error where
  /-- The value of `errors.New(text)`. -/
  | New (text : String)
  /-- The value of `fmt.Errorf(format, args...)` with no error operand. -/
  | Errorf (format : String) (args : List String)
  /-- The value of `fmt.Errorf` with one error operand `cause` and the string
  operands `args`; where the format places the error among them is not kept. -/
  | Wrapf (format : String) (args : List String) (cause : Error)
  /-- A go-ldap `*ldap.Error` carrying an LDAP result code. -/
  | LDAPResult (ResultCode : Nat)
  /-- Any other error value handed back by a library (network, parser). -/
  | Lib (text : String)
  deriving DecidableEq, Repr

/-- The type `net/url.Userinfo`. -/
structure Userinfo where
  username : String := ""
  password : String := ""
  passwordSet : Bool := false
  deriving DecidableEq, Repr

/-- The type `net/url.URL`, with all its fields: the repository reads and
writes `Scheme` and `Host` and hands the whole value to `URL.String`. `User` is
`none` for the nil pointer. -/
structure URL where
  Scheme : String := ""
  Opaque : String := ""
  User : Option Userinfo := none
  Host : String := ""
  Path : String := ""
  RawPath : String := ""
  OmitHost : Bool := false
  ForceQuery : Bool := false
  RawQuery : String := ""
  Fragment : String := ""
  RawFragment : String := ""
  deriving DecidableEq, Repr

/-- The parts of `*http.Request` that the repository reads. `BasicAuth` is the
result of `r.BasicAuth()`: `none` when its third result is false. `TLS` is
`r.TLS != nil`. `Cookies` is the result of `r.Cookies()`. -/
structure Request where
  Method : String := "GET"
  URL : URL := {}
  Host : String := ""
  Header : List (String × String) := []
  TLS : Bool := false
  BasicAuth : Option (String × String) := none
  RequestURI : String := ""
  RemoteAddr : String := ""
  Cookies : List String := []
  deriving DecidableEq, Repr

/-- The state of an `http.ResponseWriter`: the header map that `Header()`
returns, as the list of its entries in the order they were added, and the codes
of the `WriteHeader` calls that returned, oldest first. -/
structure ResponseWriter where
  Header : List (String × String) := []
  WriteHeader : List Int := []
  deriving DecidableEq, Repr

/-- Method `Header().Add(key, value)` of a response writer, for a key in
canonical form. -/
def ResponseWriter.HeaderAdd (w : ResponseWriter) (key value : String) : ResponseWriter :=
  { w with Header := w.Header ++ [(key, value)] }

/-- Method `Header().Set(key, value)` of a response writer, for a key in
canonical form. -/
def ResponseWriter.HeaderSet (w : ResponseWriter) (key value : String) : ResponseWriter :=
  { w with Header := w.Header.filter (fun kv => kv.1 != key) ++ [(key, value)] }

/-- The state of a response writer after a `WriteHeader(code)` that
returned. -/
def ResponseWriter.doWriteHeader (w : ResponseWriter) (code : Int) : ResponseWriter :=
  { w with WriteHeader := w.WriteHeader ++ [code] }

/-- The type `caddyauth.User`; the zero value is `{}`. -/
structure User where
  ID : String := ""
  Metadata : List (String × String) := []
  deriving DecidableEq, Repr

/-- Library functions of `net/url`, `net/http`, `time` and `regexp` that the
repository calls and that are not part of it, and the method of the response
writer, which the server provides. -/
structure Lib where
  /-- Function `url.Parse`. -/
  urlParse : String → Except Error URL
  /-- Method `(*url.URL).String`. -/
  URLString : URL → String
  /-- Function `url.QueryEscape`. -/
  QueryEscape : String → String
  /-- Function `time.ParseDuration`, in nanoseconds. -/
  ParseDuration : String → Except Error Int
  /-- Method `time.Duration.String`. -/
  DurationString : Int → String
  /-- Function `regexp.Compile`, as a validity check of the pattern. -/
  regexpCompile : String → Option Error
  /-- Method `WriteHeader(code)` of the response writer; `none` when it panics,
  as the writers of net/http do on a code below 100 or above 999. -/
  WriteHeader : ResponseWriter → Int → Option ResponseWriter
  /-- Function `http.Redirect(w, r, url, code)`; `none` when it panics, which it
  does when its `WriteHeader(code)` does. -/
  Redirect : ResponseWriter → Request → String → Int → Option ResponseWriter

/-! ## Package failures: the failure handlers -/

/-- Simple case folding of the runes whose fold orbit meets ASCII: the upper
case letters, the Kelvin sign and the long s. -/
def foldRune (c : Char) : Char :=
  if c = Char.ofNat 0x212A then 'k'
  else if c = Char.ofNat 0x017F then 's'
  else if 'A' ≤ c ∧ c ≤ 'Z' then Char.ofNat (c.toNat + 32)
  else c

/-- Function `strings.EqualFold(s, t)` when `t` is ASCII. -/
def EqualFold (s t : String) : Bool :=
  s.data.map foldRune == t.data.map foldRune

/-- Function `strings.Replace(s, old, new, -1)` for a non-empty `old`, on rune
lists; `skip` counts the runes of a match still to be dropped. -/
def replaceAllAux (old new : List Char) : List Char → Nat → List Char
  | [], _ => []
  | _ :: cs, skip + 1 => replaceAllAux old new cs skip
  | c :: cs, 0 =>
    if old.isPrefixOf (c :: cs) then new ++ replaceAllAux old new cs (old.length - 1)
    else c :: replaceAllAux old new cs 0

/-- Function `strings.Replace(s, old, new, -1)` for a non-empty `old`. -/
def stringsReplaceAll (s old new : String) : String :=
  String.mk (replaceAllAux old.data new.data s.data 0)

/-- Lookup `Header.Get(key)` for a key given in canonical form: the first value
stored under it, or the empty string. -/
def headerGet (h : List (String × String)) (key : String) : String :=
  match h.find? (fun kv => kv.1 == key) with
  | some kv => kv.2
  | none => ""

namespace status

/-- Constant `status.FailureMode`. -/
def FailureMode : String := "status"

/-- Constant `defaultCode`, which is `http.StatusForbidden`. -/
def defaultCode : Int := 403

/-- Status simply returns a http status code. -/
structure Status where
  Code : Int := 0
  deriving DecidableEq, Repr

/-- Constructor `status.NewDriver`. -/
def NewDriver : Status := { Code := defaultCode }

/-- Method `Status.Validate`. -/
def Status.Validate (_h : Status) : Option Error := none

/-- Method `Status.Handle`; it panics when `w.WriteHeader(h.Code)` does. -/
def Status.Handle (lib : Lib) (h : Status) (w : ResponseWriter) (r : Request) :
    Option (Option Error × ResponseWriter × Request) :=
  match lib.WriteHeader w h.Code with
  | none => none
  | some w1 => some (none, w1, r)

end status

namespace basic

/-- Constant `basic.FailureMode`. -/
def FailureMode : String := "httpbasic"

/-- The HTTP Basic challenge handler. -/
structure Basic where
  Realm : String := ""
  deriving DecidableEq, Repr

/-- Constructor `basic.NewDriver`. -/
def NewDriver : Basic := {}

/-- Method `Basic.Validate`. -/
def Basic.Validate (_h : Basic) : Option Error := none

/-- Method `Basic.Handle`; 401 is `http.StatusUnauthorized`. It panics when
`w.WriteHeader(401)` does. -/
def Basic.Handle (lib : Lib) (h : Basic) (w : ResponseWriter) (r : Request) :
    Option (Option Error × ResponseWriter × Request) :=
  let realm := if h.Realm ≠ "" then h.Realm else r.Host
  let w1 := w.HeaderAdd "WWW-Authenticate" ("Basic realm=\"" ++ realm ++ "\"")
  match lib.WriteHeader w1 401 with
  | none => none
  | some w2 => some (none, w2, r)

end basic

namespace redirect

/-- Constant `redirect.FailureMode`. -/
def FailureMode : String := "redirect"

/-- Constant `defaultRedirectCode`. -/
def defaultRedirectCode : Int := 303

/-- The redirecting handler; `URL` is a `*jsontypes.URL`, `none` when nil. -/
structure Redirect where
  URL : Option URL := none
  Code : Int := 0
  deriving DecidableEq, Repr

/-- Constructor `redirect.NewDriver`. -/
def NewDriver : Redirect := { Code := defaultRedirectCode }

/-- Method `Redirect.Validate`. -/
def Redirect.Validate (h : Redirect) : Option Error :=
  if h.URL = none then some (Error.New "url to redirect to is a required parameter")
  else none

/-- Method `Redirect.Handle`. The variable `uri` is the pointer `r.URL`, so the
request is updated and every other field of its URL reaches `uri.String()`; a
nil `h.URL` is dereferenced and panics, and so does a panic of
`http.Redirect`. -/
def Redirect.Handle (lib : Lib) (h : Redirect) (w : ResponseWriter) (r : Request) :
    Option (Option Error × ResponseWriter × Request) :=
  match h.URL with
  | none => none
  | some target =>
    let uri0 : Caddy2Reauth.URL := { r.URL with Host := "", Scheme := "" }
    let uri : Caddy2Reauth.URL :=
      if target.Host ≠ "" ∧ target.Host ≠ r.Host then
        { uri0 with
          Host := r.Host
          Scheme := if r.TLS ∨ EqualFold (headerGet r.Header "X-Forwarded-Proto") "https"
                    then "https" else "http" }
      else uri0
    let r1 : Request := { r with URL := uri }
    let location :=
      stringsReplaceAll (lib.URLString target) "\x7buri\x7d" (lib.QueryEscape (lib.URLString uri))
    let w1 := w.HeaderAdd "Location" location
    match lib.Redirect w1 r1 location h.Code with
    | none => none
    | some w2 => some (none, w2, r1)

end redirect

/-! ## Package encoding/json, as far as the resolver uses it -/

/-- A JSON document. A number literal that is an integer is `int`, any other
number literal is `number` with its text. -/
inductive Json where
  | null
  | bool (b : Bool)
  | int (n : Int)
  | number (text : String)
  | str (s : String)
  | arr (elems : List Json)
  | obj (members : List (String × Json))
  deriving Repr

/-- The argument `data []byte` of an `UnmarshalJSON` method: the bytes as text,
and what the decoder of `encoding/json` reads from them (a document, or its
syntax error). -/
structure Blob where
  raw : String
  doc : Except Error Json

/-- The `*json.UnmarshalTypeError` for a value that does not fit a Go type. -/
def typeError (goType : String) : Error :=
  Error.Lib ("json: cannot unmarshal value into Go value of type " ++ goType)

/-- The struct field an object key names: the field with exactly that name,
else the first field equal to the key under case folding. -/
def fieldFor (fields : List String) (key : String) : Option String :=
  match fields.find? (fun f => f == key) with
  | some f => some f
  | none => fields.find? (fun f => EqualFold key f)

/-- Decoding of a JSON value into a struct: the members are stored one after
the other into the fields they name, members naming no field are skipped, and
`null` leaves the struct as it is. The first malformed member ends the
decoding with its error. -/
def decodeStruct {T : Type} (fields : List String) (set : String → Json → T → Except Error T)
    (goType : String) (doc : Json) (t : T) : Except Error T :=
  match doc with
  | .null => .ok t
  | .obj members =>
    members.foldlM
      (fun acc kv =>
        match fieldFor fields kv.1 with
        | some f => set f kv.2 acc
        | none => .ok acc)
      t
  | _ => .error (typeError goType)

/-- Decoding into a `string` field. -/
def setString (v : Json) (old : String) : Except Error String :=
  match v with
  | .str s => .ok s
  | .null => .ok old
  | _ => .error (typeError "string")

/-- Decoding into a `bool` field. -/
def setBool (v : Json) (old : Bool) : Except Error Bool :=
  match v with
  | .bool b => .ok b
  | .null => .ok old
  | _ => .error (typeError "bool")

/-- Decoding into an `int` field (64 bits). -/
def setInt (v : Json) (old : Int) : Except Error Int :=
  match v with
  | .int n => if -9223372036854775808 ≤ n ∧ n ≤ 9223372036854775807 then .ok n
              else .error (typeError "int")
  | .null => .ok old
  | _ => .error (typeError "int")

/-- Decoding into a `*jsontypes.URL` field: `null` stores nil, anything else
goes through `(*URL).UnmarshalJSON`, which wants a string and parses it. -/
def setURL (lib : Lib) (v : Json) : Except Error (Option URL) :=
  match v with
  | .null => .ok none
  | .str s => (lib.urlParse s).map some
  | _ => .error (typeError "string")

/-- Decoding into a `jsontypes.Duration` field: every value, `null` too, goes
through `(*Duration).UnmarshalJSON`; for `null` the string stays empty. -/
def setDuration (lib : Lib) (v : Json) : Except Error Int :=
  match v with
  | .null => lib.ParseDuration ""
  | .str s => lib.ParseDuration s
  | _ => .error (typeError "string")

/-- Decoding into a `*jsontypes.Regexp` field; the compiled expression is kept
as its source text. -/
def setRegexp (lib : Lib) (v : Json) : Except Error (Option String) :=
  match v with
  | .null => .ok none
  | .str s =>
    match lib.regexpCompile s with
    | some err => .error err
    | none => .ok (some s)
  | _ => .error (typeError "string")

/-- Assignment `m[k] = v` on a map kept as an association list. -/
def mapSet (m : List (String × String)) (k v : String) : List (String × String) :=
  match m with
  | [] => [(k, v)]
  | (k1, v1) :: rest => if k1 = k then (k, v) :: rest else (k1, v1) :: mapSet rest k v

/-- Decoding into a `map[string]string` field: `null` stores the nil map, an
object adds its members to the map. -/
def setStringMap (v : Json) (old : List (String × String)) :
    Except Error (List (String × String)) :=
  match v with
  | .null => .ok []
  | .obj members =>
    members.foldlM
      (fun m kv =>
        match kv.2 with
        | .str s => .ok (mapSet m kv.1 s)
        | .null => .ok (mapSet m kv.1 "")
        | _ => .error (typeError "string"))
      old
  | _ => .error (typeError "map[string]string")

/-- Decoding into a `[]string` field. -/
def setStringSlice (v : Json) : Except Error (List String) :=
  match v with
  | .null => .ok []
  | .arr elems =>
    elems.mapM
      (fun e =>
        match e with
        | .str s => .ok s
        | .null => .ok ""
        | _ => .error (typeError "string"))
  | _ => .error (typeError "[]string")

/-- The members `json.Marshal` writes for a struct: the fields in order, those
tagged `omitempty` left out when empty (`none` here). -/
def marshalStruct (fields : List (Option (String × Json))) : Json :=
  Json.obj (fields.filterMap id)

/-- A `string` field tagged `omitempty`. -/
def omitString (name value : String) : Option (String × Json) :=
  if value = "" then none else some (name, Json.str value)

/-- A `bool` field tagged `omitempty`. -/
def omitBool (name : String) (value : Bool) : Option (String × Json) :=
  if value then some (name, Json.bool true) else none

/-- An `int` field tagged `omitempty`. -/
def omitInt (name : String) (value : Int) : Option (String × Json) :=
  if value = 0 then none else some (name, Json.int value)

/-- A `*jsontypes.URL` field tagged `omitempty`; `URL.MarshalJSON` writes the
string form. -/
def omitURL (lib : Lib) (name : String) (value : Option URL) : Option (String × Json) :=
  value.map (fun u => (name, Json.str (lib.URLString u)))

/-- A `jsontypes.Duration` field: a struct is never empty, so it is always
written; `Duration.MarshalJSON` writes the string form. -/
def durationMember (lib : Lib) (name : String) (value : Int) : Option (String × Json) :=
  some (name, Json.str (lib.DurationString value))

/-! ## Package failures: decoding and encoding of the handlers -/

/-- The call `json.Unmarshal(data, driver)` for a `*status.Status`. -/
def status.Status.decode (doc : Json) (h : status.Status) : Except Error status.Status :=
  decodeStruct ["code"]
    (fun f v acc =>
      match f with
      | "code" => (setInt v acc.Code).map (fun c => { acc with Code := c })
      | _ => .ok acc)
    "status.Status" doc h

/-- The call `json.Marshal(driver)` for a `*status.Status`. -/
def status.Status.marshal (h : status.Status) : Json :=
  marshalStruct [omitInt "code" h.Code]

/-- The call `json.Unmarshal(data, driver)` for a `*basic.Basic`. -/
def basic.Basic.decode (doc : Json) (h : basic.Basic) : Except Error basic.Basic :=
  decodeStruct ["realm"]
    (fun f v acc =>
      match f with
      | "realm" => (setString v acc.Realm).map (fun c => { acc with Realm := c })
      | _ => .ok acc)
    "basic.Basic" doc h

/-- The call `json.Marshal(driver)` for a `*basic.Basic`. -/
def basic.Basic.marshal (h : basic.Basic) : Json :=
  marshalStruct [omitString "realm" h.Realm]

/-- The call `json.Unmarshal(data, driver)` for a `*redirect.Redirect`. -/
def redirect.Redirect.decode (lib : Lib) (doc : Json) (h : redirect.Redirect) :
    Except Error redirect.Redirect :=
  decodeStruct ["url", "code"]
    (fun f v acc =>
      match f with
      | "url" => (setURL lib v).map (fun u => { acc with URL := u })
      | "code" => (setInt v acc.Code).map (fun c => { acc with Code := c })
      | _ => .ok acc)
    "redirect.Redirect" doc h

/-- The call `json.Marshal(driver)` for a `*redirect.Redirect`. -/
def redirect.Redirect.marshal (lib : Lib) (h : redirect.Redirect) : Json :=
  marshalStruct [omitURL lib "url" h.URL, omitInt "code" h.Code]

/-! ## Package backends: the driver interface -/

/-- The method table of a `backends.Driver` whose dynamic type is `D`; `σ` is
everything a driver can reach and change (its own heap state, the network). -/
structure DriverOps (D σ : Type) where
  Authenticate : D → Request → σ → (String × Option Error) × σ
  Validate : D → σ → Option Error × σ

/-! ## Package reauth: failure.go -/

/-- The dynamic types a `failures.Driver` stored in a `Failure` can have: the
field is unexported and only `UnmarshalJSON` and `Validate` assign it. -/
inductive FailureDriver where
  | basic (d : basic.Basic)
  | redirect (d : redirect.Redirect)
  | status (d : status.Status)
  deriving DecidableEq, Repr

/-- Dynamic dispatch of `Validate` on a `failures.Driver`. -/
def FailureDriver.Validate : FailureDriver → Option Error
  | .basic d => d.Validate
  | .redirect d => d.Validate
  | .status d => d.Validate

/-- Dynamic dispatch of `Handle` on a `failures.Driver`. -/
def FailureDriver.Handle (lib : Lib) :
    FailureDriver → ResponseWriter → Request → Option (Option Error × ResponseWriter × Request)
  | .basic d => d.Handle lib
  | .redirect d => d.Handle lib
  | .status d => d.Handle lib

/-- Failure is a failure mode; `driver` is `none` for the nil interface. -/
structure Failure where
  Mode : String := ""
  driver : Option FailureDriver := none
  deriving DecidableEq, Repr

/-- Method `(*Failure).Handle`: a nil driver panics. -/
def Failure.Handle (lib : Lib) (f : Failure) (w : ResponseWriter) (r : Request) :
    Option (Option Error × ResponseWriter × Request) :=
  match f.driver with
  | none => none
  | some d => d.Handle lib w r

/-- Method `(*Failure).Validate`: pointer receiver, so the updated receiver is
part of the result. -/
def Failure.Validate (f : Failure) : Option Error × Failure :=
  match f.driver with
  | none =>
    let d := FailureDriver.status status.NewDriver
    (d.Validate, { Mode := status.FailureMode, driver := some d })
  | some d => (d.Validate, f)

/-! ## Package reauth: backend.go and reauth.go -/

/-- Backend is an authentication backend whose driver has dynamic type `D`. -/
structure Backend (D : Type) where
  Type_ : String
  driver : D

/-- Method `(*Backend).Authenticate`. -/
def Backend.Authenticate {D σ : Type} (ops : DriverOps D σ) (b : Backend D) (r : Request)
    (s : σ) : (String × Option Error) × σ :=
  ops.Authenticate b.driver r s

/-- Method `(*Backend).Validate`. -/
def Backend.Validate {D σ : Type} (ops : DriverOps D σ) (b : Backend D) (s : σ) :
    Option Error × σ :=
  ops.Validate b.driver s

/-- Reauth module (the logger is left out). -/
structure Reauth (D : Type) where
  Backends : List (Backend D) := []
  Failure : Failure := {}

/-- One entry of the trace of a chain: a call of the driver of the backend at
an index of `Backends`, or a call of the failure handler. -/
inductive Call where
  | backend (index : Nat)
  | failure
  deriving DecidableEq, Repr

/-- What `Reauth.Authenticate` leaves behind when it returns: its three
results, the response writer, the request, the drivers' world and the calls it
made, oldest first. -/
structure Run (σ : Type) where
  user : User
  ok : Bool
  err : Option Error
  w : ResponseWriter
  req : Request
  world : σ
  calls : List Call
  deriving DecidableEq, Repr

/-- The `for _, b := range r.Backends` loop of `Reauth.Authenticate`, from the
backend at index `i` on: `some` when the body returned, `none` when the loop
ran off the end of the slice. -/
def Reauth.Authenticate.loop {D σ : Type} (ops : DriverOps D σ) (req : Request) :
    List (Backend D) → Nat → σ → List Call →
      Option (User × Bool × Option Error) × σ × List Call
  | [], _, s, calls => (none, s, calls)
  | b :: rest, i, s, calls =>
    let res := b.Authenticate ops req s
    let calls1 := calls ++ [Call.backend i]
    match res.1.2 with
    | some err => (some ({}, false, some err), res.2, calls1)
    | none =>
      if res.1.1 ≠ "" then
        (some ({ ID := res.1.1, Metadata := [("reauth_backend", b.Type_)] }, true, none),
          res.2, calls1)
      else Reauth.Authenticate.loop ops req rest (i + 1) res.2 calls1

/-- Method `Reauth.Authenticate`. -/
def Reauth.Authenticate {D σ : Type} (ops : DriverOps D σ) (lib : Lib) (r : Reauth D)
    (w : ResponseWriter) (req : Request) (s : σ) : Option (Run σ) :=
  match Reauth.Authenticate.loop ops req r.Backends 0 s [] with
  | (some (user, ok, err), s1, calls) =>
    some { user := user, ok := ok, err := err, w := w, req := req, world := s1, calls := calls }
  | (none, s1, calls) =>
    match r.Failure.Handle lib w req with
    | none => none
    | some (err, w1, req1) =>
      some { user := {}, ok := false, err := err, w := w1, req := req1, world := s1,
             calls := calls ++ [Call.failure] }

/-- The `for i, be := range r.Backends` loop of `Reauth.Validate`. -/
def Reauth.Validate.loop {D σ : Type} (ops : DriverOps D σ) :
    List (Backend D) → Nat → σ → Option Error × σ
  | [], _, s => (none, s)
  | be :: rest, i, s =>
    match be.Validate ops s with
    | (some err, s1) =>
      (some (Error.Wrapf "backends[%d] (%s) failed validation: %s" [toString i, be.Type_] err), s1)
    | (none, s1) => Reauth.Validate.loop ops rest (i + 1) s1

/-- Method `Reauth.Validate`. The receiver is a value: `r.Failure.Validate()`
updates the `Failure` of the method's own copy of the chain, which is gone when
the method returns, so the result holds no chain. -/
def Reauth.Validate {D σ : Type} (ops : DriverOps D σ) (r : Reauth D) (s : σ) :
    Option Error × σ :=
  match Reauth.Validate.loop ops r.Backends 0 s with
  | (some err, s1) => (some err, s1)
  | (none, s1) =>
    match r.Failure.Validate with
    | (some err, _) =>
      (some (Error.Wrapf "failure mode %s failed validation: %s" [r.Failure.Mode] err), s1)
    | (none, _) => (none, s1)

/-! ## Package net: SplitHostPort -/

/-- Index of the first occurrence of `c` in `s`, as `strings.IndexByte`. -/
def indexByte (s : List Char) (c : Char) : Option Nat :=
  match s with
  | [] => none
  | x :: xs => if x = c then some 0 else (indexByte xs c).map (· + 1)

/-- Index of the last occurrence of `c` in `s`, as `strings.LastIndexByte`. -/
def lastIndexByte (s : List Char) (c : Char) : Option Nat :=
  match s with
  | [] => none
  | x :: xs =>
    match lastIndexByte xs c with
    | some i => some (i + 1)
    | none => if x = c then some 0 else none

/-- The `*net.AddrError` that `SplitHostPort` returns. -/
def addrErr (why : String) : String × String × Option Error :=
  ("", "", some (Error.Lib why))

/-- Function `net.SplitHostPort` of the Go standard library: host, port and
error. On every error both strings are empty. -/
def SplitHostPort (hostport : String) : String × String × Option Error :=
  let hp := hostport.data
  match lastIndexByte hp ':' with
  | none => addrErr "missing port in address"
  | some i =>
    if hp.head? = some '[' then
      match indexByte hp ']' with
      | none => addrErr "missing ']' in address"
      | some close =>
        if close + 1 = hp.length then addrErr "missing port in address"
        else if close + 1 = i then
          if (indexByte (hp.drop 1) '[').isSome then addrErr "unexpected '[' in address"
          else if (indexByte (hp.drop (close + 1)) ']').isSome then
            addrErr "unexpected ']' in address"
          else (String.mk ((hp.take close).drop 1), String.mk (hp.drop (i + 1)), none)
        else if (hp.drop (close + 1)).head? = some ':' then addrErr "too many colons in address"
        else addrErr "missing port in address"
    else
      if (indexByte (hp.take i) ':').isSome then addrErr "too many colons in address"
      else if (indexByte hp '[').isSome then addrErr "unexpected '[' in address"
      else if (indexByte hp ']').isSome then addrErr "unexpected ']' in address"
      else (String.mk (hp.take i), String.mk (hp.drop (i + 1)), none)

/-! ## Package ldap: the directory client -/

namespace ldap

/-- Constant `ldap.BackendName`. -/
def BackendName : String := "ldap"

/-- Constant `defaultPoolSize`. -/
def defaultPoolSize : Int := 10

/-- Constant `time.Second`, in nanoseconds. -/
def Second : Int := 1000000000

/-- Constant `defaultTimeout`, which is `time.Minute`. -/
def defaultTimeout : Int := 60 * Second

/-- Constant `defaultFilter`. -/
def defaultFilter : String := "(&(objectClass=user)(sAMAccountName=%s))"

/-- Constant `ldp.LDAPResultInvalidCredentials`. -/
def LDAPResultInvalidCredentials : Nat := 49

/-- Constant `ldp.ScopeWholeSubtree`. -/
def ScopeWholeSubtree : Nat := 2

/-- Constant `ldp.NeverDerefAliases`. -/
def NeverDerefAliases : Nat := 0

/-- Function `ldp.IsErrorWithCode`. -/
def IsErrorWithCode (err : Error) (code : Nat) : Bool :=
  match err with
  | .LDAPResult c => c == code
  | _ => false

/-- An `ldp.Client`: the handle of one connection to the directory. -/
abbrev Client := Nat

/-- The value `ldp.NewSearchRequest` builds. `Filter` holds the two operands
of `fmt.Sprintf(h.FilterDN, un+h.PrincipalSuffix)`. -/
structure SearchRequest where
  BaseDN : String
  Scope : Nat
  DerefAliases : Nat
  SizeLimit : Int
  TimeLimit : Int
  TypesOnly : Bool
  Filter : String × String
  Attributes : List String
  deriving DecidableEq, Repr

/-- An `*ldp.Entry` of a search result. -/
structure Entry where
  DN : String
  deriving DecidableEq, Repr

/-- The directory server and the transport to it, as go-ldap presents them,
and the allocator of the Go runtime. `W` is the state of server and transport;
every operation on them may change it. -/
structure Net (W : Type) where
  /-- Whether `make(chan ldp.Client, n)` returns for a capacity `n > 0`; it
  panics ("makechan: size out of range") when the buffer is larger than the
  runtime can allocate. -/
  makeChan : Int → Bool
  /-- Function `ldp.Dial("tcp", addr)`. -/
  Dial : String → W → Except Error Client × W
  /-- Function `ldp.DialTLS("tcp", addr, &tls.Config{InsecureSkipVerify})`. -/
  DialTLS : String → Bool → W → Except Error Client × W
  /-- Method `StartTLS(&tls.Config{InsecureSkipVerify})`. -/
  StartTLS : Client → Bool → W → Option Error × W
  /-- Method `Bind(username, password)`. -/
  Bind : Client → String → String → W → Option Error × W
  /-- Method `Search(searchRequest)`; the list is `sr.Entries`. -/
  Search : Client → SearchRequest → W → Except Error (List Entry) × W
  /-- Method `Close()`. -/
  Close : Client → W → W

/-- What the directory client did, oldest first: the calls into go-ldap and
the receives from and sends to the pool channel. -/
inductive Event where
  | Dial (addr : String)
  | DialTLS (addr : String) (insecureSkipVerify : Bool)
  | StartTLS (c : Client) (insecureSkipVerify : Bool)
  | Bind (c : Client) (dn password : String)
  | Search (c : Client) (req : SearchRequest)
  | Close (c : Client)
  | PoolRecv (c : Client)
  | PoolSend (c : Client)
  deriving DecidableEq, Repr

/-- The state outside the `LDAP` value: the network and the trace. -/
structure World (W : Type) where
  net : W
  trace : List Event
  deriving DecidableEq, Repr

/-- A buffered `chan ldp.Client`: its capacity and its queue, head first. -/
structure Chan where
  cap : Nat
  buf : List Client
  deriving DecidableEq, Repr

/-- LDAP backend provides authentication against LDAP paths. `Timeout` is the
duration in nanoseconds; `pool` is `none` for the nil channel. -/
structure LDAP where
  URL : Option URL := none
  BaseDN : String := ""
  FilterDN : String := ""
  PrincipalSuffix : String := ""
  BindDN : String := ""
  BindPassword : String := ""
  TLS : Bool := false
  InsecureSkipVerify : Bool := false
  Timeout : Int := 0
  ConnectionPoolSize : Int := 0
  pool : Option Chan := none
  deriving DecidableEq, Repr

/-- Constructor `ldap.NewDriver`. -/
def NewDriver : LDAP :=
  { Timeout := defaultTimeout, ConnectionPoolSize := defaultPoolSize, FilterDN := defaultFilter }

/-- Lines 183 to 196 of `getConnection`: whether the dial is over implicit TLS,
and the address dialed. -/
def LDAP.getConnection.target (u : Caddy2Reauth.URL) : Bool × String :=
  let hp := SplitHostPort u.Host
  let host := hp.1
  let port := hp.2.1
  let ldaps := port = "636" ∨ port = "3269" ∨ u.Scheme = "ldaps"
  let ldaps : Bool := if u.Scheme = "ldap" then false else decide ldaps
  let port := if port = "" ∨ port = "0" then (if ldaps then "636" else "389") else port
  (ldaps, host ++ ":" ++ port)

/-- Lines 183 to 222 of `getConnection`: dial a fresh connection, upgrade it
when `TLS` is set, bind as the service. A nil `URL` is dereferenced and panics. -/
def LDAP.getConnection.fresh {W : Type} (net : Net W) (h : LDAP) (s : World W) :
    Option (Except Error Client × LDAP × World W) :=
  match h.URL with
  | none => none
  | some u =>
    let t := LDAP.getConnection.target u
    let dialed :=
      if t.1 then net.DialTLS t.2 h.InsecureSkipVerify s.net else net.Dial t.2 s.net
    let ev := if t.1 then Event.DialTLS t.2 h.InsecureSkipVerify else Event.Dial t.2
    let s1 : World W := { net := dialed.2, trace := s.trace ++ [ev] }
    match dialed.1 with
    | .error err => some (.error (Error.Wrapf "connect to %q: %v" [t.2] err), h, s1)
    | .ok c =>
      let up : Option Error × World W :=
        if h.TLS then
          let r := net.StartTLS c h.InsecureSkipVerify s1.net
          (r.1, { net := r.2, trace := s1.trace ++ [Event.StartTLS c h.InsecureSkipVerify] })
        else (none, s1)
      match up.1 with
      | some err =>
        some (.error (Error.Wrapf "StartTLS: %v" [] err), h,
          { net := net.Close c up.2.net, trace := up.2.trace ++ [Event.Close c] })
      | none =>
        let b := net.Bind c h.BindDN h.BindPassword up.2.net
        let s3 : World W :=
          { net := b.2, trace := up.2.trace ++ [Event.Bind c h.BindDN h.BindPassword] }
        match b.1 with
        | some err =>
          some (.error (Error.Wrapf "bind with %q: %v" [h.BindDN] err), h,
            { net := net.Close c s3.net, trace := s3.trace ++ [Event.Close c] })
        | none => some (.ok c, h, s3)

/-- Method `(*LDAP).getConnection`. The `select` receives from the pool when
a connection is queued and takes `default` when the channel is empty or nil. -/
def LDAP.getConnection {W : Type} (net : Net W) (h : LDAP) (s : World W) :
    Option (Except Error Client × LDAP × World W) :=
  match h.pool with
  | some { cap := n, buf := c :: rest } =>
    let h1 : LDAP := { h with pool := some { cap := n, buf := rest } }
    let b := net.Bind c h.BindDN h.BindPassword s.net
    let s1 : World W :=
      { net := b.2,
        trace := s.trace ++ [Event.PoolRecv c, Event.Bind c h.BindDN h.BindPassword] }
    match b.1 with
    | none => some (.ok c, h1, s1)
    | some _ =>
      LDAP.getConnection.fresh net h1
        { net := net.Close c s1.net, trace := s1.trace ++ [Event.Close c] }
  | _ => LDAP.getConnection.fresh net h s

/-- Method `(*LDAP).stashConnection`: the send succeeds when the channel is
not nil and not full; otherwise the connection is closed. -/
def LDAP.stashConnection {W : Type} (net : Net W) (h : LDAP) (c : Client) (s : World W) :
    LDAP × World W :=
  match h.pool with
  | some ch =>
    if ch.buf.length < ch.cap then
      ({ h with pool := some { ch with buf := ch.buf ++ [c] } },
        { s with trace := s.trace ++ [Event.PoolSend c] })
    else (h, { net := net.Close c s.net, trace := s.trace ++ [Event.Close c] })
  | none => (h, { net := net.Close c s.net, trace := s.trace ++ [Event.Close c] })

/-- The `missing` slice that `Validate` builds. -/
def LDAP.Validate.missing (h : LDAP) : List String :=
  (if h.URL = none then ["URL"] else []) ++
  (if h.BindDN = "" then ["BindDN"] else []) ++
  (if h.BindPassword = "" then ["BindPassword"] else []) ++
  (if h.BaseDN = "" then ["BaseDN"] else [])

/-- Method `(*LDAP).Validate`. The `make` of the pool panics for a capacity
the runtime refuses. -/
def LDAP.Validate {W : Type} (net : Net W) (h : LDAP) (s : World W) :
    Option (Option Error × LDAP × World W) :=
  let missing := LDAP.Validate.missing h
  if missing.length > 0 then
    let plural := if missing.length > 1 then "s" else ""
    some (some (Error.New ("missing the following required parameter" ++ plural ++ ": " ++
        ", ".intercalate missing)), h, s)
  else if h.Timeout ≤ 0 then
    some (some (Error.New "timeout must be greater than 0"), h, s)
  else if h.ConnectionPoolSize ≤ 0 then
    some (some (Error.New "connection pool size must be greater than 0"), h, s)
  else if net.makeChan h.ConnectionPoolSize = false then none
  else
    let h1 : LDAP := { h with pool := some { cap := h.ConnectionPoolSize.toNat, buf := [] } }
    match h1.getConnection net s with
    | none => none
    | some (.error err, h2, s2) => some (some err, h2, s2)
    | some (.ok c, h2, s2) =>
      let r := h2.stashConnection net c s2
      some (none, r.1, r.2)

/-- The search request of `Authenticate` for the user name `un`. -/
def LDAP.searchRequest (h : LDAP) (un : String) : SearchRequest :=
  { BaseDN := h.BaseDN
    Scope := ScopeWholeSubtree
    DerefAliases := NeverDerefAliases
    SizeLimit := 0
    TimeLimit := Int.tdiv h.Timeout Second
    TypesOnly := false
    Filter := (h.FilterDN, un ++ h.PrincipalSuffix)
    Attributes := ["dn"] }

/-- Lines 136 to 169 of `Authenticate`: what happens between the acquisition
of connection `c` and the deferred release. -/
def LDAP.Authenticate.body {W : Type} (net : Net W) (h : LDAP) (c : Client)
    (un pw : String) (s : World W) : (String × Option Error) × World W :=
  let searchRequest := h.searchRequest un
  let sr := net.Search c searchRequest s.net
  let s1 : World W := { net := sr.2, trace := s.trace ++ [Event.Search c searchRequest] }
  match sr.1 with
  | .error err =>
    (("", some (Error.Wrapf "search under %q for %q: %v"
      [h.BaseDN, h.FilterDN, un ++ h.PrincipalSuffix] err)), s1)
  | .ok [] => (("", none), s1)
  | .ok (_ :: _ :: _) => (("", some (Error.New "too many entries returned")), s1)
  | .ok [entry] =>
    let userDN := entry.DN
    let b := net.Bind c userDN pw s1.net
    let s2 : World W := { net := b.2, trace := s1.trace ++ [Event.Bind c userDN pw] }
    match b.1 with
    | some err =>
      if IsErrorWithCode err LDAPResultInvalidCredentials then (("", none), s2)
      else (("", some (Error.Wrapf "bind with %q: %v" [userDN] err)), s2)
    | none => ((userDN, none), s2)

/-- Method `(*LDAP).Authenticate`. -/
def LDAP.Authenticate {W : Type} (net : Net W) (h : LDAP) (r : Request) (s : World W) :
    Option ((String × Option Error) × LDAP × World W) :=
  match r.BasicAuth with
  | none => some (("", none), h, s)
  | some (un, pw) =>
    match h.getConnection net s with
    | none => none
    | some (.error err, h1, s1) => some (("", some err), h1, s1)
    | some (.ok c, h1, s1) =>
      let res := LDAP.Authenticate.body net h1 c un pw s1
      let rel := h1.stashConnection net c res.2
      some (res.1, rel.1, rel.2)

end ldap

/-! ## Packages simple, gitlabci and upstream: configuration -/

namespace simple

/-- Constant `simple.BackendName`. -/
def BackendName : String := "simple"

/-- Simple is the simplest backend for authentication, a name:password map,
kept as an association list. -/
structure Simple where
  UseBcrypt : Bool := false
  Credentials : List (String × String) := []
  deriving DecidableEq, Repr

/-- Constructor `simple.NewDriver`. -/
def NewDriver : Simple := { Credentials := [] }

/-- Method `Simple.Validate`. -/
def Simple.Validate (_h : Simple) : Option Error := none

/-- The call `json.Unmarshal(data, driver)` for a `*simple.Simple`. -/
def Simple.decode (doc : Json) (h : Simple) : Except Error Simple :=
  decodeStruct ["use_bcrypt", "credentials"]
    (fun f v acc =>
      match f with
      | "use_bcrypt" => (setBool v acc.UseBcrypt).map (fun c => { acc with UseBcrypt := c })
      | "credentials" =>
        (setStringMap v acc.Credentials).map (fun c => { acc with Credentials := c })
      | _ => .ok acc)
    "simple.Simple" doc h

/-- The call `json.Marshal(driver)` for a `*simple.Simple`; the order of the
keys of the map is the stored one. -/
def Simple.marshal (h : Simple) : Json :=
  marshalStruct
    [omitBool "use_bcrypt" h.UseBcrypt,
     if h.Credentials = [] then none
     else some ("credentials", Json.obj (h.Credentials.map (fun kv => (kv.1, Json.str kv.2))))]

end simple

namespace gitlabci

/-- Constant `gitlabci.BackendName`. -/
def BackendName : String := "gitlabci"

/-- Constant `defaultTimeout`, which is `time.Minute`. -/
def defaultTimeout : Int := 60 * ldap.Second

/-- Constant `defaultUsername`. -/
def defaultUsername : String := "gitlab-ci-token"

/-- GitlabCI backend provides authentication against gitlab paths. -/
structure GitlabCI where
  URL : Option URL := none
  Timeout : Int := 0
  Username : String := ""
  InsecureSkipVerify : Bool := false
  deriving DecidableEq, Repr

/-- Constructor `gitlabci.NewDriver`. -/
def NewDriver : GitlabCI := { Timeout := defaultTimeout, Username := defaultUsername }

/-- Method `GitlabCI.Validate`. -/
def GitlabCI.Validate (h : GitlabCI) : Option Error :=
  if h.Username = "" then some (Error.New "username is a required option")
  else if h.Timeout ≤ 0 then some (Error.New "timeout must be greater than 0")
  else if h.URL = none then some (Error.New "url to auth against is a required parameter")
  else none

/-- The call `json.Unmarshal(data, driver)` for a `*gitlabci.GitlabCI`. -/
def GitlabCI.decode (lib : Lib) (doc : Json) (h : GitlabCI) : Except Error GitlabCI :=
  decodeStruct ["url", "timeout", "username", "insecure_skip_verify"]
    (fun f v acc =>
      match f with
      | "url" => (setURL lib v).map (fun c => { acc with URL := c })
      | "timeout" => (setDuration lib v).map (fun c => { acc with Timeout := c })
      | "username" => (setString v acc.Username).map (fun c => { acc with Username := c })
      | "insecure_skip_verify" =>
        (setBool v acc.InsecureSkipVerify).map (fun c => { acc with InsecureSkipVerify := c })
      | _ => .ok acc)
    "gitlabci.GitlabCI" doc h

/-- The call `json.Marshal(driver)` for a `*gitlabci.GitlabCI`. -/
def GitlabCI.marshal (lib : Lib) (h : GitlabCI) : Json :=
  marshalStruct
    [omitURL lib "url" h.URL,
     durationMember lib "timeout" h.Timeout,
     omitString "username" h.Username,
     omitBool "insecure_skip_verify" h.InsecureSkipVerify]

end gitlabci

namespace upstream

/-- Constant `upstream.BackendName`. -/
def BackendName : String := "upstream"

/-- Constant `defaultTimeout`, which is `time.Minute`. -/
def defaultTimeout : Int := 60 * ldap.Second

/-- The anonymous struct of the field `Forward`. -/
structure Forward where
  URL : Bool := false
  Method : Bool := false
  IP : Bool := false
  Headers : List String := []
  deriving DecidableEq, Repr

/-- Upstream backend provides authentication against an upstream http server.
`Match` is the source text of the compiled expression, `none` when nil. -/
structure Upstream where
  URL : Option URL := none
  Timeout : Int := 0
  InsecureSkipVerify : Bool := false
  FollowRedirects : Bool := false
  PassCookies : Bool := false
  Match : Option String := none
  Forward : Forward := {}
  deriving DecidableEq, Repr

/-- Constructor `upstream.NewDriver`. -/
def NewDriver : Upstream := { Timeout := defaultTimeout }

/-- Method `Upstream.Validate`. -/
def Upstream.Validate (h : Upstream) : Option Error :=
  if h.URL = none then some (Error.New "url to auth against is a required parameter")
  else if h.Timeout ≤ 0 then some (Error.New "timeout must be greater than 0")
  else none

/-- Decoding into the field `Forward`. -/
def Forward.decode (doc : Json) (h : Forward) : Except Error Forward :=
  decodeStruct ["url", "method", "ip", "headers"]
    (fun f v acc =>
      match f with
      | "url" => (setBool v acc.URL).map (fun c => { acc with URL := c })
      | "method" => (setBool v acc.Method).map (fun c => { acc with Method := c })
      | "ip" => (setBool v acc.IP).map (fun c => { acc with IP := c })
      | "headers" => (setStringSlice v).map (fun c => { acc with Headers := c })
      | _ => .ok acc)
    "struct" doc h

/-- The call `json.Unmarshal(data, driver)` for an `*upstream.Upstream`. -/
def Upstream.decode (lib : Lib) (doc : Json) (h : Upstream) : Except Error Upstream :=
  decodeStruct
    ["url", "timeout", "insecure_skip_verify", "follow_redirects", "pass_cookies", "match",
     "forward"]
    (fun f v acc =>
      match f with
      | "url" => (setURL lib v).map (fun c => { acc with URL := c })
      | "timeout" => (setDuration lib v).map (fun c => { acc with Timeout := c })
      | "insecure_skip_verify" =>
        (setBool v acc.InsecureSkipVerify).map (fun c => { acc with InsecureSkipVerify := c })
      | "follow_redirects" =>
        (setBool v acc.FollowRedirects).map (fun c => { acc with FollowRedirects := c })
      | "pass_cookies" =>
        (setBool v acc.PassCookies).map (fun c => { acc with PassCookies := c })
      | "match" => (setRegexp lib v).map (fun c => { acc with Match := c })
      | "forward" => (Forward.decode v acc.Forward).map (fun c => { acc with Forward := c })
      | _ => .ok acc)
    "upstream.Upstream" doc h

/-- The call `json.Marshal(driver)` for an `*upstream.Upstream`; the field
`Forward` is not tagged `omitempty`. -/
def Upstream.marshal (lib : Lib) (h : Upstream) : Json :=
  marshalStruct
    [omitURL lib "url" h.URL,
     durationMember lib "timeout" h.Timeout,
     omitBool "insecure_skip_verify" h.InsecureSkipVerify,
     omitBool "follow_redirects" h.FollowRedirects,
     omitBool "pass_cookies" h.PassCookies,
     h.Match.map (fun m => ("match", Json.str m)),
     some ("forward",
       marshalStruct
         [omitBool "url" h.Forward.URL,
          omitBool "method" h.Forward.Method,
          omitBool "ip" h.Forward.IP,
          if h.Forward.Headers = [] then none
          else some ("headers", Json.arr (h.Forward.Headers.map Json.str))])]

end upstream

namespace ldap

/-- The call `json.Unmarshal(data, driver)` for an `*ldap.LDAP`. -/
def LDAP.decode (lib : Lib) (doc : Json) (h : LDAP) : Except Error LDAP :=
  decodeStruct
    ["url", "base_dn", "filter_dn", "principal_suffix", "bind_dn", "bind_password", "tls",
     "insecure_skip_verify", "timeout", "connection_pool_size"]
    (fun f v acc =>
      match f with
      | "url" => (setURL lib v).map (fun c => { acc with URL := c })
      | "base_dn" => (setString v acc.BaseDN).map (fun c => { acc with BaseDN := c })
      | "filter_dn" => (setString v acc.FilterDN).map (fun c => { acc with FilterDN := c })
      | "principal_suffix" =>
        (setString v acc.PrincipalSuffix).map (fun c => { acc with PrincipalSuffix := c })
      | "bind_dn" => (setString v acc.BindDN).map (fun c => { acc with BindDN := c })
      | "bind_password" =>
        (setString v acc.BindPassword).map (fun c => { acc with BindPassword := c })
      | "tls" => (setBool v acc.TLS).map (fun c => { acc with TLS := c })
      | "insecure_skip_verify" =>
        (setBool v acc.InsecureSkipVerify).map (fun c => { acc with InsecureSkipVerify := c })
      | "timeout" => (setDuration lib v).map (fun c => { acc with Timeout := c })
      | "connection_pool_size" =>
        (setInt v acc.ConnectionPoolSize).map (fun c => { acc with ConnectionPoolSize := c })
      | _ => .ok acc)
    "ldap.LDAP" doc h

/-- The call `json.Marshal(driver)` for an `*ldap.LDAP`; the unexported pool
is not written. -/
def LDAP.marshal (lib : Lib) (h : LDAP) : Json :=
  marshalStruct
    [omitURL lib "url" h.URL,
     omitString "base_dn" h.BaseDN,
     omitString "filter_dn" h.FilterDN,
     omitString "principal_suffix" h.PrincipalSuffix,
     omitString "bind_dn" h.BindDN,
     omitString "bind_password" h.BindPassword,
     omitBool "tls" h.TLS,
     omitBool "insecure_skip_verify" h.InsecureSkipVerify,
     durationMember lib "timeout" h.Timeout,
     omitInt "connection_pool_size" h.ConnectionPoolSize]

end ldap

/-! ## Package reauth: the resolver of backend.go and failure.go -/

/-- The call `json.Unmarshal(data, &x)` for a struct `x` whose decoding of a
document is `decode`. -/
def unmarshalInto {T : Type} (decode : Json → T → Except Error T) (data : Blob) (x : T) :
    Except Error T :=
  match data.doc with
  | .error err => .error err
  | .ok doc => decode doc x

/-- The call `json.Unmarshal(data, &x)` for `x` of a type `undecorated`: a struct
without methods whose one exported field is a string tagged `field`. The result
is that field. -/
def unmarshalTag (field : String) (data : Blob) : Except Error String :=
  unmarshalInto
    (decodeStruct [field] (fun _ v acc => setString v acc) "reauth.undecorated") data ""

/-- The dynamic types of the `backends.Driver` that `Backend.UnmarshalJSON`
stores. -/
inductive BackendDriver where
  | gitlabci (d : gitlabci.GitlabCI)
  | ldap (d : ldap.LDAP)
  | simple (d : simple.Simple)
  | upstream (d : upstream.Upstream)
  deriving DecidableEq, Repr

/-- Dynamic dispatch of `Validate` on a `backends.Driver`. Only the LDAP
driver has a pointer receiver and touches the network. -/
def BackendDriver.Validate {W : Type} (net : ldap.Net W) (d : BackendDriver)
    (s : ldap.World W) : Option (Option Error × BackendDriver × ldap.World W) :=
  match d with
  | .gitlabci h => some (h.Validate, .gitlabci h, s)
  | .ldap h =>
    match h.Validate net s with
    | none => none
    | some (err, h1, s1) => some (err, .ldap h1, s1)
  | .simple h => some (h.Validate, .simple h, s)
  | .upstream h => some (h.Validate, .upstream h, s)

/-- The call `json.Unmarshal(data, driver)` of `Backend.UnmarshalJSON`. -/
def BackendDriver.unmarshal (lib : Lib) (data : Blob) (d : BackendDriver) :
    Except Error BackendDriver :=
  match d with
  | .gitlabci h => (unmarshalInto (gitlabci.GitlabCI.decode lib) data h).map .gitlabci
  | .ldap h => (unmarshalInto (ldap.LDAP.decode lib) data h).map .ldap
  | .simple h => (unmarshalInto simple.Simple.decode data h).map .simple
  | .upstream h => (unmarshalInto (upstream.Upstream.decode lib) data h).map .upstream

/-- The call `json.Marshal(b.driver)`: the document whose encoding it returns. -/
def BackendDriver.marshal (lib : Lib) (d : BackendDriver) : Json :=
  match d with
  | .gitlabci h => h.marshal lib
  | .ldap h => h.marshal lib
  | .simple h => h.marshal
  | .upstream h => h.marshal lib

/-- The `switch backend.Type` of `Backend.UnmarshalJSON`; `none` is the
default case. -/
def Backend.UnmarshalJSON.newDriver (type_ : String) : Option BackendDriver :=
  if type_ = gitlabci.BackendName then some (.gitlabci gitlabci.NewDriver)
  else if type_ = ldap.BackendName then some (.ldap ldap.NewDriver)
  else if type_ = simple.BackendName then some (.simple simple.NewDriver)
  else if type_ = upstream.BackendName then some (.upstream upstream.NewDriver)
  else none

/-- Method `(*Backend).UnmarshalJSON`. The receiver is written only on
success, with both fields, so the result is either the error or the new value
of the receiver. -/
def Backend.UnmarshalJSON {W : Type} (lib : Lib) (net : ldap.Net W) (data : Blob)
    (s : ldap.World W) : Option (Except Error (Backend BackendDriver) × ldap.World W) :=
  if data.raw.utf8ByteSize < 10 then
    some (.error (Error.Errorf "invalid configuration: %s" [data.raw]), s)
  else
    match unmarshalTag "type" data with
    | .error err =>
      some (.error (Error.Wrapf "invalid reauth configuration, error: %s, config: %s"
        [data.raw] err), s)
    | .ok type_ =>
      match Backend.UnmarshalJSON.newDriver type_ with
      | none =>
        some (.error (Error.Errorf
          "invalid reauth configuration, error: unknown backend %q, config: %s"
          [type_, data.raw]), s)
      | some driver0 =>
        match driver0.unmarshal lib data with
        | .error err =>
          some (.error (Error.Wrapf "invalid reauth:%s configuration, error: %s, config:%s"
            [type_, data.raw] err), s)
        | .ok driver1 =>
          match driver1.Validate net s with
          | none => none
          | some (some err, _, s1) =>
            some (.error (Error.Wrapf "invalid reauth:%s configuration, error: %s, config: %s"
              [type_, data.raw] err), s1)
          | some (none, driver, s1) => some (.ok { Type_ := type_, driver := driver }, s1)

/-- Method `Backend.MarshalJSON`: the document whose encoding it returns. -/
def Backend.MarshalJSON (lib : Lib) (b : Backend BackendDriver) : Json :=
  b.driver.marshal lib

/-- The call `json.Unmarshal(data, driver)` of `Failure.UnmarshalJSON`. -/
def FailureDriver.unmarshal (lib : Lib) (data : Blob) (d : FailureDriver) :
    Except Error FailureDriver :=
  match d with
  | .basic h => (unmarshalInto basic.Basic.decode data h).map .basic
  | .redirect h => (unmarshalInto (redirect.Redirect.decode lib) data h).map .redirect
  | .status h => (unmarshalInto status.Status.decode data h).map .status

/-- The call `json.Marshal(f.driver)` for a driver that is not nil. -/
def FailureDriver.marshal (lib : Lib) (d : FailureDriver) : Json :=
  match d with
  | .basic h => h.marshal
  | .redirect h => h.marshal lib
  | .status h => h.marshal

/-- The `switch failure.Mode` of `Failure.UnmarshalJSON`; `none` is the
default case. -/
def Failure.UnmarshalJSON.newDriver (mode : String) : Option FailureDriver :=
  if mode = basic.FailureMode then some (.basic basic.NewDriver)
  else if mode = redirect.FailureMode then some (.redirect redirect.NewDriver)
  else if mode = status.FailureMode then some (.status status.NewDriver)
  else none

/-- Method `(*Failure).UnmarshalJSON`: the error, or the new value of the
receiver. -/
def Failure.UnmarshalJSON (lib : Lib) (data : Blob) : Except Error Failure :=
  if data.raw.utf8ByteSize < 10 then
    .error (Error.Errorf "invalid configuration: %s" [data.raw])
  else
    match unmarshalTag "mode" data with
    | .error err =>
      .error (Error.Wrapf "invalid reauth configuration, error: %s, config: %s" [data.raw] err)
    | .ok mode =>
      match Failure.UnmarshalJSON.newDriver mode with
      | none =>
        .error (Error.Errorf
          "invalid reauth configuration, error: unknown failure mode %q, config: %s"
          [mode, data.raw])
      | some driver0 =>
        match driver0.unmarshal lib data with
        | .error err =>
          .error (Error.Wrapf "invalid reauth:%s configuration, error: %s, config:%s"
            [mode, data.raw] err)
        | .ok driver =>
          match driver.Validate with
          | some err =>
            .error (Error.Wrapf "invalid reauth:%s configuration, error: %s, config: %s"
              [mode, data.raw] err)
          | none => .ok { Mode := mode, driver := some driver }

/-- Method `Failure.MarshalJSON`: the document whose encoding it returns; a
nil driver is written as `null`. -/
def Failure.MarshalJSON (lib : Lib) (f : Failure) : Json :=
  match f.driver with
  | none => Json.null
  | some d => d.marshal lib

/-- The type tag under which a driver variant is registered in the switch of
`Backend.UnmarshalJSON`. -/
def BackendDriver.BackendName : BackendDriver → String
  | .gitlabci _ => gitlabci.BackendName
  | .ldap _ => ldap.BackendName
  | .simple _ => simple.BackendName
  | .upstream _ => upstream.BackendName

/-- The mode tag under which a handler variant is registered in the switch of
`Failure.UnmarshalJSON`. -/
def FailureDriver.FailureMode : FailureDriver → String
  | .basic _ => basic.FailureMode
  | .redirect _ => redirect.FailureMode
  | .status _ => status.FailureMode

/-! ## Package net/http: the client, as far as the backends use it -/

namespace http

/-- The `*http.Request` a backend builds with `http.NewRequest` and sends:
method and URL, the credentials of `SetBasicAuth`, the cookies of `AddCookie`
and the `Header.Add` calls, oldest first. -/
structure Outgoing where
  Method : String
  URL : String
  BasicAuth : Option (String × String) := none
  Cookies : List String := []
  Header : List (String × String) := []
  deriving DecidableEq, Repr

/-- Method `Header.Add(key, value)` of an outgoing request. -/
def Outgoing.HeaderAdd (req : Outgoing) (key value : String) : Outgoing :=
  { req with Header := req.Header ++ [(key, value)] }

/-- The `*http.Client` a backend builds: its timeout, whether `CheckRedirect`
is `noRedirectsPolicy`, and whether the transport skips certificate
verification. -/
structure Client where
  Timeout : Int
  noRedirects : Bool
  InsecureSkipVerify : Bool
  deriving DecidableEq, Repr

/-- The parts of an `*http.Response` that the backends read; `RequestURL` is
`resp.Request.URL.String()`. -/
structure Response where
  StatusCode : Int
  Status : String := ""
  RequestURL : String := ""
  deriving DecidableEq, Repr

/-- The remote services and the library calls around them. `W` is the state of
the remote side; sending a request may change it. -/
structure Remote (W : Type) where
  /-- The error of `http.NewRequest(method, url, nil)`, nil when it succeeds. -/
  NewRequest : String → String → Option Error
  /-- Method `(*http.Client).Do`. -/
  Do : Client → Outgoing → W → Except Error Response × W
  /-- Method `(*url.URL).Parse(ref)`. -/
  URLParse : URL → String → Except Error URL
  /-- Method `MatchString` of the expression compiled from a source text. -/
  MatchString : String → String → Bool
  /-- Function `http.CanonicalHeaderKey`, which `Header.Get` applies to its
  key. -/
  CanonicalHeaderKey : String → String

end http

/-! ## Packages simple, gitlabci and upstream: Authenticate -/

/-- Method `simple.Simple.Authenticate`. `compare` is
`bcrypt.CompareHashAndPassword` (hash first), and the map lookup is the first
entry of the association list. -/
def simple.Simple.Authenticate (compare : String → String → Option Error) (h : simple.Simple)
    (r : Request) : String × Option Error :=
  match r.BasicAuth with
  | none => ("", none)
  | some (un, pw) =>
    match h.Credentials.lookup un with
    | some p =>
      if h.UseBcrypt then
        if compare p pw = none then (un, none) else ("", none)
      else if p = pw then (un, none)
      else ("", none)
    | none => ("", none)

/-- Method `gitlabci.GitlabCI.Authenticate`. A nil `URL` is dereferenced by
`h.URL.Parse` and panics. -/
def gitlabci.GitlabCI.Authenticate {W : Type} (remote : http.Remote W) (lib : Lib)
    (h : gitlabci.GitlabCI) (r : Request) (s : W) : Option ((String × Option Error) × W) :=
  match r.BasicAuth with
  | none => some (("", none), s)
  | some (un, pw) =>
    match h.URL with
    | none => none
    | some u =>
      match remote.URLParse u (un ++ ".git/info/refs?service=git-upload-pack") with
      | .error err => some (("", some (Error.Wrapf "unable to parse repo path: %v" [] err)), s)
      | .ok repo =>
        let c : http.Client :=
          { Timeout := h.Timeout
            noRedirects := true
            InsecureSkipVerify := decide (repo.Scheme = "https") && h.InsecureSkipVerify }
        match remote.NewRequest "GET" (lib.URLString repo) with
        | some err => some (("", some err), s)
        | none =>
          let req : http.Outgoing :=
            { Method := "GET", URL := lib.URLString repo, BasicAuth := some (h.Username, pw) }
          let res := remote.Do c req s
          match res.1 with
          | .error err => some (("", some err), res.2)
          | .ok resp =>
            if resp.StatusCode ≠ 200 then
              some (("", some (Error.Errorf "unexpected status code from gitlabci: %d (%s)"
                [toString resp.StatusCode, resp.Status])), res.2)
            else some ((un, none), res.2)

/-- Method `upstream.Upstream.copyRequest`; `canon` is
`http.CanonicalHeaderKey`. -/
def upstream.Upstream.copyRequest (canon : String → String) (h : upstream.Upstream)
    (org : Request) (req : http.Outgoing) : http.Outgoing :=
  let req1 := if h.PassCookies then { req with Cookies := req.Cookies ++ org.Cookies } else req
  let req2 := if h.Forward.URL then req1.HeaderAdd "X-Auth-URL" org.RequestURI else req1
  let req3 := if h.Forward.Method then req2.HeaderAdd "X-Auth-Method" org.Method else req2
  let req4 := if h.Forward.IP then req3.HeaderAdd "X-Auth-IP" org.RemoteAddr else req3
  h.Forward.Headers.foldl
    (fun acc header =>
      if headerGet org.Header (canon header) ≠ "" then
        acc.HeaderAdd ("X-Auth-Header-" ++ header) (headerGet org.Header (canon header))
      else acc)
    req4

/-- Method `upstream.Upstream.Authenticate`. Without basic-auth credentials
`un` is the empty string. A nil `URL` is dereferenced by `h.URL.Scheme` and
panics. -/
def upstream.Upstream.Authenticate {W : Type} (remote : http.Remote W) (lib : Lib)
    (h : upstream.Upstream) (r : Request) (s : W) : Option ((String × Option Error) × W) :=
  let un := match r.BasicAuth with
    | some (un, _) => un
    | none => ""
  if ¬ (r.BasicAuth.isSome ∨ h.PassCookies) then some (("", none), s)
  else
    match h.URL with
    | none => none
    | some u =>
      let c : http.Client :=
        { Timeout := h.Timeout
          noRedirects := !h.FollowRedirects
          InsecureSkipVerify := decide (u.Scheme = "https") && h.InsecureSkipVerify }
      match remote.NewRequest "GET" (lib.URLString u) with
      | some err => some (("", some err), s)
      | none =>
        let req0 : http.Outgoing :=
          { Method := "GET", URL := lib.URLString u, BasicAuth := r.BasicAuth }
        let req := h.copyRequest remote.CanonicalHeaderKey r req0
        let res := remote.Do c req s
        match res.1 with
        | .error err => some (("", some err), res.2)
        | .ok resp =>
          if resp.StatusCode ≠ 200 then some (("", none), res.2)
          else if (match h.Match with
              | some m => remote.MatchString m resp.RequestURL
              | none => false) then some (("", none), res.2)
          else some ((un, none), res.2)

/-! ## Packages net/url and net/http: models of the functions the redirect uses -/

namespace url

/-- The bytes of the UTF-8 encoding of a rune. -/
def utf8 (c : Char) : List Nat :=
  let n := c.toNat
  if n < 128 then [n]
  else if n < 2048 then [192 + n / 64, 128 + n % 64]
  else if n < 65536 then [224 + n / 4096, 128 + n / 64 % 64, 128 + n % 64]
  else [240 + n / 262144, 128 + n / 4096 % 64, 128 + n / 64 % 64, 128 + n % 64]

/-- Function `shouldEscape(c, encodeQueryComponent)` of net/url, on a byte:
letters, digits and the four marks `-`, `_`, `.`, `~` are kept. -/
def shouldEscape (c : Nat) : Bool :=
  if (97 ≤ c ∧ c ≤ 122) ∨ (65 ≤ c ∧ c ≤ 90) ∨ (48 ≤ c ∧ c ≤ 57) then false
  else if c ∈ [45, 95, 46, 126] then false
  else true

/-- The digits of `upperhex`. -/
def upperhex (n : Nat) : Char :=
  if n < 10 then Char.ofNat (48 + n) else Char.ofNat (55 + n)

/-- One byte of the output of `escape(s, encodeQueryComponent)`. -/
def escapeByte (c : Nat) : List Char :=
  if c = 32 then ['+']
  else if shouldEscape c then ['%', upperhex (c / 16), upperhex (c % 16)]
  else [Char.ofNat c]

/-- Function `url.QueryEscape`, which is `escape(s, encodeQueryComponent)`.
Every byte it keeps is ASCII. -/
def QueryEscape (s : String) : String :=
  String.mk ((s.data.flatMap utf8).flatMap escapeByte)

end url

namespace http

/-- The digits of `strconv.AppendInt(b, n, 16)` for a byte of 16 or more. -/
def lowerhex (n : Nat) : Char :=
  if n < 10 then Char.ofNat (48 + n) else Char.ofNat (87 + n)

/-- Function `hexEscapeNonASCII` of net/http: every byte of 128 or more
becomes a percent sign and its two hexadecimal digits. -/
def hexEscapeNonASCII (s : String) : String :=
  String.mk (s.data.flatMap (fun c =>
    if c.toNat < 128 then [c]
    else (url.utf8 c).flatMap (fun b => ['%', lowerhex (b / 16), lowerhex (b % 16)])))

/-- The first result of `path.Split`: the text up to and including the last
slash. -/
def pathDir (p : String) : String :=
  String.mk (p.data.reverse.dropWhile (fun c => c != '/')).reverse

/-- The rewriting of a location without scheme and host in `http.Redirect`; `clean`
is `path.Clean`. -/
def Redirect.absolute (clean : String → String) (r : Request) (url : String) : String :=
  let oldpath := if r.URL.Path = "" then "/" else r.URL.Path
  let url1 := if url = "" ∨ url.data.head? ≠ some '/' then pathDir oldpath ++ url else url
  let path := String.mk (url1.data.takeWhile (fun c => c != '?'))
  let query := String.mk (url1.data.dropWhile (fun c => c != '?'))
  let trailing := path.data.getLast? = some '/'
  let cleaned := clean path
  let cleaned1 :=
    if trailing ∧ cleaned.data.getLast? ≠ some '/' then cleaned ++ "/" else cleaned
  cleaned1 ++ query

/-- Function `http.Redirect(w, r, url, code)`. `parse` is `url.Parse`, `clean` is
`path.Clean` and `writeHeader` is the `WriteHeader` of the writer. The body
written for a GET is not part of the state of the writer. -/
def Redirect (parse : String → Except Error URL) (clean : String → String)
    (writeHeader : ResponseWriter → Int → Option ResponseWriter)
    (w : ResponseWriter) (r : Request) (url : String) (code : Int) : Option ResponseWriter :=
  let url1 :=
    match parse url with
    | .ok u => if u.Scheme = "" ∧ u.Host = "" then Redirect.absolute clean r url else url
    | .error _ => url
  let hadCT := w.Header.any (fun kv => kv.1 == "Content-Type")
  let w1 := w.HeaderSet "Location" (hexEscapeNonASCII url1)
  let w2 :=
    if !hadCT && (r.Method == "GET" || r.Method == "HEAD") then
      w1.HeaderSet "Content-Type" "text/html; charset=utf-8"
    else w1
  writeHeader w2 code

end http

/-! ## Vocabulary of the statements about the chain -/

/-- Every backend of `bs`, called in order starting in world `s`, returns the
empty identity and a nil error. -/
def declines {D σ : Type} (ops : DriverOps D σ) (req : Request) : List (Backend D) → σ → Prop
  | [], _ => True
  | b :: bs, s =>
    (b.Authenticate ops req s).1 = ("", none) ∧ declines ops req bs (b.Authenticate ops req s).2

/-- The world after every backend of `bs` was called once, in order. -/
def worldAfter {D σ : Type} (ops : DriverOps D σ) (req : Request) : List (Backend D) → σ → σ
  | [], s => s
  | b :: bs, s => worldAfter ops req bs (b.Authenticate ops req s).2

/-- The trace in which the backends at indices `i`, ..., `i + n - 1` are each
called once, in this order, and nothing else is. -/
def backendCalls (i : Nat) : Nat → List Call
  | 0 => []
  | n + 1 => Call.backend i :: backendCalls (i + 1) n

/-! ## Vocabulary of the statements about the pool -/

namespace ldap

/-- The number of dials (`ldp.Dial` or `ldp.DialTLS`) in a trace. -/
def dials : List Event → Nat
  | [] => 0
  | Event.Dial _ :: t => dials t + 1
  | Event.DialTLS _ _ :: t => dials t + 1
  | _ :: t => dials t

/-- A sequence of acquire-then-release pairs: `getConnection` followed by
`stashConnection` of the connection acquired, so many times. It is `none` when
an acquisition fails or panics. -/
def roundTrips {W : Type} (net : Net W) : Nat → LDAP → World W → Option (LDAP × World W)
  | 0, h, s => some (h, s)
  | n + 1, h, s =>
    match h.getConnection net s with
    | some (.ok c, h1, s1) =>
      roundTrips net n (h1.stashConnection net c s1).1 (h1.stashConnection net c s1).2
    | _ => none

/-- The bind of connection `c` as the service succeeds so many times in a row,
starting in the network state `w`. -/
def rebinds {W : Type} (net : Net W) (dn pw : String) (c : Client) : Nat → W → Prop
  | 0, _ => True
  | n + 1, w => (net.Bind c dn pw w).1 = none ∧ rebinds net dn pw c n (net.Bind c dn pw w).2

end ldap

/-! ## Test doubles for the examples -/

/-- The `WriteHeader` of a response of net/http whose header is not written
yet: `checkWriteHeaderCode` panics on a code below 100 or above 999, any other
code is taken. -/
def netWriteHeader (w : ResponseWriter) (code : Int) : Option ResponseWriter :=
  if code < 100 ∨ 999 < code then none else some (w.doWriteHeader code)

/-- A library for the examples. The parsers know the few texts the examples
use and reject everything else; the printers are their inverses on those
texts; the writer is that of net/http; `http.Redirect` only writes the status
code. -/
def testLib : Lib where
  urlParse := fun t =>
    if t = "ldap://ldap.example.com:389" then
      .ok { Scheme := "ldap", Host := "ldap.example.com:389" }
    else if t = "ldap://ldap.example.com" then
      .ok { Scheme := "ldap", Host := "ldap.example.com" }
    else .error (Error.Lib "parse: unknown text")
  URLString := fun u => u.Scheme ++ "://" ++ u.Host ++ u.Path
  QueryEscape := fun t => t
  ParseDuration := fun t =>
    if t = "1m0s" then .ok (60 * ldap.Second)
    else if t = "30s" then .ok (30 * ldap.Second)
    else .error (Error.Lib "time: invalid duration")
  DurationString := fun d =>
    if d = 60 * ldap.Second then "1m0s" else if d = 30 * ldap.Second then "30s" else "?"
  regexpCompile := fun _ => none
  WriteHeader := netWriteHeader
  Redirect := fun w _ _ code => netWriteHeader w code

/-- Three drivers for the examples: one that never recognises a request, one
that always fails, one that always answers "bob". -/
inductive Stub where
  | empty
  | broken
  | bob
  deriving DecidableEq, Repr

/-- The methods of the stub drivers; the world counts the calls made. -/
def stubOps : DriverOps Stub Nat where
  Authenticate := fun d _ n =>
    match d with
    | .empty => (("", none), n + 1)
    | .broken => (("", some (Error.New "backend down")), n + 1)
    | .bob => (("bob", none), n + 1)
  Validate := fun _ n => (none, n)

/-- Backend `A` of the examples: always the empty identity. -/
def stubA : Backend Stub := { Type_ := "A", driver := .empty }

/-- Backend `B` of the examples: always "bob". -/
def stubB : Backend Stub := { Type_ := "B", driver := .bob }

/-- Backend `E` of the examples: always an error. -/
def stubE : Backend Stub := { Type_ := "E", driver := .broken }

/-- A directory for the examples. Every dial succeeds and numbers the
connection; the state is the number of connections dialed so far. The service
account is "cn=svc" with password "svcpw", the one user is
"cn=alice,dc=example" with password "secret"; any other bind is rejected with
result code 49, except that the DN "cn=down" fails like a broken connection.
A search for "alice" finds her entry, a search for "twins" finds two entries,
any other search finds none. The runtime is a 64-bit one: `make` refuses a
channel whose header of 96 bytes and elements of 16 bytes exceed 2^48 bytes. -/
def testNet : ldap.Net Nat where
  makeChan := fun n => decide (16 * n + 96 ≤ 2 ^ 48)
  Dial := fun _ n => (.ok n, n + 1)
  DialTLS := fun _ _ n => (.ok n, n + 1)
  StartTLS := fun _ _ n => (none, n)
  Bind := fun _ dn pw n =>
    if (dn, pw) = ("cn=svc", "svcpw") ∨ (dn, pw) = ("cn=alice,dc=example", "secret") then (none, n)
    else if dn = "cn=down" then (some (Error.Lib "connection reset"), n)
    else (some (Error.LDAPResult 49), n)
  Search := fun _ req n =>
    if req.Filter.2 = "alice" then (.ok [{ DN := "cn=alice,dc=example" }], n)
    else if req.Filter.2 = "twins" then (.ok [{ DN := "cn=twin1" }, { DN := "cn=twin2" }], n)
    else (.ok [], n)
  Close := fun _ n => n

/-- A complete configuration of the directory client for the examples. -/
def testLDAP : ldap.LDAP :=
  { URL := some { Scheme := "ldap", Host := "ldap.example.com:389" }
    BaseDN := "dc=example"
    FilterDN := ldap.defaultFilter
    BindDN := "cn=svc"
    BindPassword := "svcpw"
    Timeout := ldap.defaultTimeout
    ConnectionPoolSize := 1 }

/-- The client of the examples after validation: connection 0 is pooled. -/
def testLDAPReady : ldap.LDAP :=
  { testLDAP with pool := some { cap := 1, buf := [0] } }

/-- A request of the examples carrying the given basic-auth credentials. -/
def testRequest (un pw : String) : Request :=
  { BasicAuth := some (un, pw) }

/-- The configuration blob of a credential table with one entry. -/
def blobSimple : Blob :=
  { raw := "\x7b\"type\":\"simple\",\"credentials\":\x7b\"username\":\"password\"\x7d\x7d"
    doc := .ok (.obj [("type", .str "simple"),
                      ("credentials", .obj [("username", .str "password")])]) }

/-- The configuration blob of the status handler with code 403. -/
def blobStatus : Blob :=
  { raw := "\x7b\"mode\":\"status\",\"code\":403\x7d"
    doc := .ok (.obj [("mode", .str "status"), ("code", .int 403)]) }

/-- The configuration blob of the status handler with code 0. -/
def blobStatusZero : Blob :=
  { raw := "\x7b\"mode\":\"status\",\"code\":0\x7d"
    doc := .ok (.obj [("mode", .str "status"), ("code", .int 0)]) }

/-- The configuration blob of the directory client of the examples. -/
def blobLDAP : Blob :=
  { raw := "\x7b\"type\":\"ldap\",\"url\":\"ldap://ldap.example.com:389\"," ++
      "\"base_dn\":\"dc=example\",\"bind_dn\":\"cn=svc\",\"bind_password\":\"svcpw\"," ++
      "\"connection_pool_size\":1\x7d"
    doc := .ok (.obj [("type", .str "ldap"), ("url", .str "ldap://ldap.example.com:389"),
                      ("base_dn", .str "dc=example"), ("bind_dn", .str "cn=svc"),
                      ("bind_password", .str "svcpw"), ("connection_pool_size", .int 1)]) }

/-- The configuration of the directory client of the examples with the
largest pool size an `int` holds. -/
def testLDAPHuge : ldap.LDAP :=
  { testLDAP with ConnectionPoolSize := 9223372036854775807 }

/-- The configuration blob of the directory client with the largest pool
size. -/
def blobLDAPHuge : Blob :=
  { raw := "\x7b\"type\":\"ldap\",\"url\":\"ldap://ldap.example.com:389\"," ++
      "\"base_dn\":\"dc=example\",\"bind_dn\":\"cn=svc\",\"bind_password\":\"svcpw\"," ++
      "\"connection_pool_size\":9223372036854775807\x7d"
    doc := .ok (.obj [("type", .str "ldap"), ("url", .str "ldap://ldap.example.com:389"),
                      ("base_dn", .str "dc=example"), ("bind_dn", .str "cn=svc"),
                      ("bind_password", .str "svcpw"),
                      ("connection_pool_size", .int 9223372036854775807)]) }

/-- A chain of the examples whose failure handler was left unconfigured. -/
def unconfigured : Reauth Stub :=
  { Backends := [stubA], Failure := {} }

/-- Remote services for the examples. A request to a URL on the host
"down.example" fails like a refused connection; a request with the basic-auth
password "token" is answered 200, any other with 401. Every probe can be built,
no expression matches, a reference is resolved by putting it after the base,
and header names are taken to be in canonical form. The state counts the requests sent. -/
def testRemote : http.Remote Nat where
  NewRequest := fun _ _ => none
  Do := fun _ req n =>
    if req.URL = "http://down.example/" then
      (.error (Error.Lib "dial tcp: connection refused"), n + 1)
    else if req.BasicAuth.map (fun c => c.2) = some "token" then
      (.ok { StatusCode := 200, Status := "200 OK", RequestURL := req.URL }, n + 1)
    else (.ok { StatusCode := 401, Status := "401 Unauthorized", RequestURL := req.URL }, n + 1)
  URLParse := fun u ref => .ok { u with Path := u.Path ++ ref }
  MatchString := fun _ _ => false
  CanonicalHeaderKey := fun k => k

/-- A password check for the examples: the hash of a password is the password
behind the text "hash:". -/
def testCompare (hash pw : String) : Option Error :=
  if hash = "hash:" ++ pw then none else some (Error.Lib "bcrypt: mismatch")

/-- The credential table of the examples, in plain mode. -/
def testSimple : simple.Simple :=
  { Credentials := [("username", "password")] }

/-- An upstream probe of the examples that passes cookies to a host that is
down. -/
def testUpstreamDown : upstream.Upstream :=
  { URL := some { Scheme := "http", Host := "down.example", Path := "/" }
    Timeout := upstream.defaultTimeout
    PassCookies := true }

/-- An upstream probe of the examples. -/
def testUpstream : upstream.Upstream :=
  { URL := some { Scheme := "http", Host := "auth.example", Path := "/" }
    Timeout := upstream.defaultTimeout }

/-- A token probe of the examples. -/
def testGitlabCI : gitlabci.GitlabCI :=
  { URL := some { Scheme := "https", Host := "gitlab.example", Path := "/" }
    Timeout := gitlabci.defaultTimeout
    Username := gitlabci.defaultUsername }

/-- A directory for the examples whose server drops the first connection: the
state is the number of dials and the number of binds so far; every dial
succeeds and numbers the connection; a bind of connection 0 succeeds only as
the very first bind, any other bind succeeds. -/
def agingNet : ldap.Net (Nat × Nat) where
  makeChan := testNet.makeChan
  Dial := fun _ n => (.ok n.1, (n.1 + 1, n.2))
  DialTLS := fun _ _ n => (.ok n.1, (n.1 + 1, n.2))
  StartTLS := fun _ _ n => (none, n)
  Bind := fun c _ _ n =>
    if c = 0 ∧ 1 ≤ n.2 then (some (Error.Lib "connection closed"), (n.1, n.2 + 1))
    else (none, (n.1, n.2 + 1))
  Search := fun _ _ n => (.ok [], n)
  Close := fun _ n => n

/-- The target of the redirect of the examples, which `url.Parse` returns for
the text "https://auth.example/login?next=" followed by the placeholder. -/
def testTarget : URL :=
  { Scheme := "https", Host := "auth.example", Path := "/login",
    RawQuery := "next=\x7buri\x7d" }

/-- Function `url.Parse` on the texts of the examples of the redirect: the
target and the two locations. -/
def goParse (t : String) : Except Error URL :=
  if t = "https://auth.example/login?next=\x7buri\x7d" then .ok testTarget
  else if t = "https://auth.example/login?next=%2Fsecret%3Fx%3D1" then
    .ok { testTarget with RawQuery := "next=%2Fsecret%3Fx%3D1" }
  else if t = "https://auth.example/login?next=http%3A%2F%2Fapp.example%2Fsecret%3Fx%3D1" then
    .ok { testTarget with RawQuery := "next=http%3A%2F%2Fapp.example%2Fsecret%3Fx%3D1" }
  else testLib.urlParse t

/-- Method `URL.String` on the URLs of the examples of the redirect: the
target, and the URL of the request for "/secret?x=1" without and with the
scheme "http" and the host "app.example". -/
def goString (u : URL) : String :=
  if u = testTarget then "https://auth.example/login?next=\x7buri\x7d"
  else if u = { Path := "/secret", RawQuery := "x=1" } then "/secret?x=1"
  else if u = { Scheme := "http", Host := "app.example", Path := "/secret", RawQuery := "x=1" }
    then "http://app.example/secret?x=1"
  else testLib.URLString u

/-- The library of the examples of the redirect: the tables above, the models
of `url.QueryEscape` and `http.Redirect`, the writer of net/http, and a
`path.Clean` for paths that are clean already. -/
def goLib : Lib :=
  { testLib with
    urlParse := goParse
    URLString := goString
    QueryEscape := url.QueryEscape
    Redirect := http.Redirect goParse (fun p => p) netWriteHeader }

/-- The configuration blob of the redirect of the examples, without a code. -/
def blobRedirect : Blob :=
  { raw := "\x7b\"mode\":\"redirect\"," ++
      "\"url\":\"https://auth.example/login?next=\x7buri\x7d\"\x7d"
    doc := .ok (.obj [("mode", .str "redirect"),
                      ("url", .str "https://auth.example/login?next=\x7buri\x7d")]) }

/-- A request of the examples for the path "/secret?x=1" on a host. -/
def testSecretRequest (host : String) : Request :=
  { Host := host, URL := { Path := "/secret", RawQuery := "x=1" },
    RequestURI := "/secret?x=1" }

/-! ## Theorems -/

/-! ### The chain -/

/-- The calls of `n + 1` backends are those of `n` and one more. -/
theorem backendCalls_succ (i n : Nat) :
    backendCalls i (n + 1) = backendCalls i n ++ [Call.backend (i + n)] := by
  induction n generalizing i with
  | zero => simp [backendCalls]
  | succ n ih =>
    rw [backendCalls, ih (i + 1), backendCalls]
    simp [Nat.add_assoc, Nat.add_comm 1 n]

/-- The loop walks through a prefix of declining backends: it calls each once
and goes on with the rest of the slice. -/
theorem loop_declines {D σ : Type} (ops : DriverOps D σ) (req : Request)
    (pre rest : List (Backend D)) (i : Nat) (s : σ) (calls : List Call)
    (hpre : declines ops req pre s) :
    Reauth.Authenticate.loop ops req (pre ++ rest) i s calls =
      Reauth.Authenticate.loop ops req rest (i + pre.length) (worldAfter ops req pre s)
        (calls ++ backendCalls i pre.length) := by
  induction pre generalizing i s calls with
  | nil => simp [worldAfter, backendCalls]
  | cons b bs ih =>
    obtain ⟨h1, h2⟩ := hpre
    have e1 : (b.Authenticate ops req s).1.1 = "" := by rw [h1]
    have e2 : (b.Authenticate ops req s).1.2 = none := by rw [h1]
    simp only [List.cons_append, Reauth.Authenticate.loop, e1, e2, ne_eq, not_true_eq_false,
      if_false]
    have ih2 := ih (i + 1) _ (calls ++ [Call.backend i]) h2
    simp only [List.append_eq] at ih2 ⊢
    rw [ih2]
    simp [worldAfter, backendCalls, Nat.add_assoc, Nat.add_comm 1]

/-- Claim C1. If the backend at position `pre.length` of a chain returns an
error `e` (with whatever identity `u`) and every backend before it returned the
empty identity and no error, `Reauth.Authenticate` returns the zero user, false
and exactly `e`; the calls made are those of the backends at positions
`0 .. pre.length`, each once and in order, so no later backend and no failure
handler is called, and the response writer is untouched. -/
theorem authenticate_error_aborts {D σ : Type} (ops : DriverOps D σ) (lib : Lib)
    (pre post : List (Backend D)) (b : Backend D) (f : Failure) (w : ResponseWriter)
    (req : Request) (s : σ) (u : String) (e : Error)
    (hpre : declines ops req pre s)
    (hb : (b.Authenticate ops req (worldAfter ops req pre s)).1 = (u, some e)) :
    Reauth.Authenticate ops lib { Backends := pre ++ b :: post, Failure := f } w req s =
      some { user := {}, ok := false, err := some e, w := w, req := req,
             world := (b.Authenticate ops req (worldAfter ops req pre s)).2,
             calls := backendCalls 0 (pre.length + 1) } := by
  have e2 : (b.Authenticate ops req (worldAfter ops req pre s)).1.2 = some e := by rw [hb]
  simp only [Reauth.Authenticate, loop_declines ops req pre (b :: post) 0 s [] hpre,
    Reauth.Authenticate.loop, e2, backendCalls_succ, List.nil_append, Nat.zero_add]

theorem authenticate_error_aborts_witness :
    declines stubOps {} [stubA] 0 ∧
    (stubE.Authenticate stubOps {} (worldAfter stubOps {} [stubA] 0)).1 =
      ("", some (Error.New "backend down")) ∧
    Reauth.Authenticate stubOps testLib { Backends := [stubA] ++ stubE :: [stubB] } {} {} 0 =
      some { user := {}, ok := false, err := some (Error.New "backend down"), w := {}, req := {},
             world := 2, calls := [Call.backend 0, Call.backend 1] } :=
  ⟨⟨rfl, trivial⟩, rfl,
    authenticate_error_aborts stubOps testLib [stubA] [stubB] stubE {} {} {} 0 ""
      (Error.New "backend down") ⟨rfl, trivial⟩ rfl⟩

/-- Claim C2. If the backend at position `pre.length` returns a non-empty
identity `u` (and no error) and every backend before it returned the empty
identity and no error, `Reauth.Authenticate` returns true, no error and the user
with ID `u` whose metadata is the one entry "reauth_backend" with that backend's
type tag; the calls made are those of the backends at positions
`0 .. pre.length`, so no later backend and no failure handler is called. In
particular, when `A` always returns the empty identity and `B` always returns
"bob", the chains `[A, B]` and `[B, A]` both yield "bob" attributed to `B`. -/
theorem authenticate_first_match {D σ : Type} (ops : DriverOps D σ) (lib : Lib)
    (pre post : List (Backend D)) (b : Backend D) (f : Failure) (w : ResponseWriter)
    (req : Request) (s : σ) (u : String)
    (hpre : declines ops req pre s)
    (hb : (b.Authenticate ops req (worldAfter ops req pre s)).1 = (u, none))
    (hu : u ≠ "") :
    Reauth.Authenticate ops lib { Backends := pre ++ b :: post, Failure := f } w req s =
      some { user := { ID := u, Metadata := [("reauth_backend", b.Type_)] },
             ok := true, err := none, w := w, req := req,
             world := (b.Authenticate ops req (worldAfter ops req pre s)).2,
             calls := backendCalls 0 (pre.length + 1) } ∧
    ∀ A B : Backend D,
      (∀ t, (A.Authenticate ops req t).1 = ("", none)) →
      (∀ t, (B.Authenticate ops req t).1 = ("bob", none)) →
      ∀ g : Failure,
        (Reauth.Authenticate ops lib { Backends := [A, B], Failure := g } w req s).map
            (fun r => (r.user, r.ok, r.err, r.calls)) =
          some ({ ID := "bob", Metadata := [("reauth_backend", B.Type_)] }, true, none,
            [Call.backend 0, Call.backend 1]) ∧
        (Reauth.Authenticate ops lib { Backends := [B, A], Failure := g } w req s).map
            (fun r => (r.user, r.ok, r.err, r.calls)) =
          some ({ ID := "bob", Metadata := [("reauth_backend", B.Type_)] }, true, none,
            [Call.backend 0]) := by
  have e1 : (b.Authenticate ops req (worldAfter ops req pre s)).1.1 = u := by rw [hb]
  have e2 : (b.Authenticate ops req (worldAfter ops req pre s)).1.2 = none := by rw [hb]
  refine ⟨?_, ?_⟩
  · simp only [Reauth.Authenticate, loop_declines ops req pre (b :: post) 0 s [] hpre,
      Reauth.Authenticate.loop, e1, e2, hu, ne_eq, not_false_eq_true, if_true,
      backendCalls_succ, List.nil_append, Nat.zero_add]
  · intro A B hA hB g
    have a1 : ∀ t, (A.Authenticate ops req t).1.1 = "" := fun t => by rw [hA]
    have a2 : ∀ t, (A.Authenticate ops req t).1.2 = none := fun t => by rw [hA]
    have b1 : ∀ t, (B.Authenticate ops req t).1.1 = "bob" := fun t => by rw [hB]
    have b2 : ∀ t, (B.Authenticate ops req t).1.2 = none := fun t => by rw [hB]
    constructor <;>
      simp [Reauth.Authenticate, Reauth.Authenticate.loop, a1, a2, b1, b2]

theorem authenticate_first_match_witness :
    declines stubOps {} [stubA] 0 ∧
    (stubB.Authenticate stubOps {} (worldAfter stubOps {} [stubA] 0)).1 = ("bob", none) ∧
    "bob" ≠ "" ∧
    Reauth.Authenticate stubOps testLib { Backends := [stubA] ++ stubB :: [stubE] } {} {} 0 =
      some { user := { ID := "bob", Metadata := [("reauth_backend", "B")] },
             ok := true, err := none, w := {}, req := {},
             world := 2, calls := [Call.backend 0, Call.backend 1] } :=
  ⟨⟨rfl, trivial⟩, rfl, by decide,
    (authenticate_first_match stubOps testLib [stubA] [stubE] stubB {} {} {} 0 "bob"
      ⟨rfl, trivial⟩ rfl (by decide)).1⟩

/-- Claim C3, as stated, fails: the blob of a status handler with code 0
resolves and passes validation, and on a chain with this handler whose one
backend declines, `Reauth.Authenticate` does not return: the `WriteHeader(0)` of
the handler panics in net/http. -/
theorem status_zero_panics :
    Failure.UnmarshalJSON testLib blobStatusZero =
      .ok { Mode := "status", driver := some (.status { Code := 0 }) } ∧
    (FailureDriver.status { Code := 0 }).Validate = none ∧
    declines stubOps {} [stubA] 0 ∧
    testLib.WriteHeader {} 0 = none ∧
    Reauth.Authenticate stubOps testLib
        { Backends := [stubA],
          Failure := { Mode := "status", driver := some (.status { Code := 0 }) } }
        {} {} 0 = none := by
  refine ⟨by rfl, rfl, ⟨rfl, trivial⟩, by decide, by rfl⟩

/-- Claim C3 (amended). If every backend of a chain returns the empty identity
and no error, and the chain has a failure handler `d`, then
`Reauth.Authenticate` calls every backend once, in order, and then the handler
exactly once, on the response writer and the request it was given. When that
call returns, `Authenticate` returns the zero user, false and a nil error, and
leaves the writer and the request as the handler left them; when it panics,
`Authenticate` panics, as it does for a status handler whose `WriteHeader`
panics. -/
theorem authenticate_exhausted_handles {D σ : Type} (ops : DriverOps D σ) (lib : Lib)
    (bs : List (Backend D)) (mode : String) (d : FailureDriver) (w : ResponseWriter)
    (req : Request) (s : σ)
    (hall : declines ops req bs s) :
    Reauth.Authenticate ops lib
        { Backends := bs, Failure := { Mode := mode, driver := some d } } w req s =
      (d.Handle lib w req).map (fun out =>
        { user := {}, ok := false, err := none, w := out.2.1, req := out.2.2,
          world := worldAfter ops req bs s,
          calls := backendCalls 0 bs.length ++ [Call.failure] }) ∧
    (∀ h, d = .status h →
      ((Reauth.Authenticate ops lib
          { Backends := bs, Failure := { Mode := mode, driver := some d } } w req s).isSome ↔
        (lib.WriteHeader w h.Code).isSome)) := by
  have hloop := loop_declines ops req bs [] 0 s [] hall
  simp only [List.append_nil, Reauth.Authenticate.loop, List.nil_append, Nat.zero_add] at hloop
  have hmain : Reauth.Authenticate ops lib
        { Backends := bs, Failure := { Mode := mode, driver := some d } } w req s =
      (d.Handle lib w req).map (fun out =>
        { user := {}, ok := false, err := none, w := out.2.1, req := out.2.2,
          world := worldAfter ops req bs s,
          calls := backendCalls 0 bs.length ++ [Call.failure] }) := by
    simp only [Reauth.Authenticate, hloop, Failure.Handle]
    cases d with
    | basic h =>
      simp only [FailureDriver.Handle, basic.Basic.Handle]
      cases lib.WriteHeader _ 401 <;> rfl
    | status h =>
      simp only [FailureDriver.Handle, status.Status.Handle]
      cases lib.WriteHeader w h.Code <;> rfl
    | redirect h =>
      simp only [FailureDriver.Handle, redirect.Redirect.Handle]
      cases h.URL with
      | none => rfl
      | some target =>
        simp only
        cases lib.Redirect _ _ _ h.Code <;> rfl
  refine ⟨hmain, ?_⟩
  intro h hd
  rw [hmain, hd]
  simp only [FailureDriver.Handle, status.Status.Handle]
  cases lib.WriteHeader w h.Code <;> simp

/-- Two backends that decline and the status handler with code 403: both are
called, then the handler, which writes 403. -/
theorem authenticate_exhausted_handles_witness :
    declines stubOps {} [stubA, stubA] 0 ∧
    Reauth.Authenticate stubOps testLib
        { Backends := [stubA, stubA],
          Failure := { Mode := "status", driver := some (FailureDriver.status { Code := 403 }) } }
        {} {} 0 =
      some { user := {}, ok := false, err := none, w := { WriteHeader := [403] }, req := {},
             world := 2, calls := [Call.backend 0, Call.backend 1, Call.failure] } :=
  ⟨⟨rfl, rfl, trivial⟩,
    (authenticate_exhausted_handles stubOps testLib [stubA, stubA] "status"
      (FailureDriver.status { Code := 403 }) {} {} 0 ⟨rfl, rfl, trivial⟩).1.trans (by rfl)⟩

/-! ### The directory client -/

namespace ldap

/-- A fresh dial leaves the `LDAP` value as it is. -/
theorem fresh_keeps {W : Type} (net : Net W) (h : LDAP) (s : World W)
    (r : Except Error Client) (h2 : LDAP) (s2 : World W)
    (hf : LDAP.getConnection.fresh net h s = some (r, h2, s2)) : h2 = h := by
  unfold LDAP.getConnection.fresh at hf
  split at hf
  · simp at hf
  · simp only at hf
    split at hf
    · simp only [Option.some.injEq, Prod.mk.injEq] at hf; exact hf.2.1.symm
    · split at hf
      · simp only [Option.some.injEq, Prod.mk.injEq] at hf; exact hf.2.1.symm
      · split at hf <;>
          (simp only [Option.some.injEq, Prod.mk.injEq] at hf; exact hf.2.1.symm)

/-- A fresh dial panics only on a nil URL. -/
theorem fresh_isSome {W : Type} (net : Net W) (h : LDAP) (s : World W) (hu : h.URL ≠ none) :
    LDAP.getConnection.fresh net h s ≠ none := by
  unfold LDAP.getConnection.fresh
  split
  · contradiction
  · simp only
    split
    · simp
    · split
      · simp
      · split <;> simp

/-- With an empty pool `getConnection` is the fresh dial. -/
theorem getConnection_empty {W : Type} (net : Net W) (h : LDAP) (s : World W) (n : Nat)
    (hp : h.pool = some { cap := n, buf := [] }) :
    h.getConnection net s = LDAP.getConnection.fresh net h s := by
  unfold LDAP.getConnection
  split
  · rename_i heq
    rw [hp] at heq
    simp at heq
  · rfl

/-- Method `getConnection` changes nothing of the `LDAP` value but the pool. -/
theorem getConnection_config {W : Type} (net : Net W) (h : LDAP) (s : World W)
    (r : Except Error Client) (h2 : LDAP) (s2 : World W)
    (hg : h.getConnection net s = some (r, h2, s2)) : h2 = { h with pool := h2.pool } := by
  unfold LDAP.getConnection at hg
  split at hg
  · simp only at hg
    split at hg
    · simp only [Option.some.injEq, Prod.mk.injEq] at hg
      rw [← hg.2.1]
    · rw [fresh_keeps net _ _ r h2 s2 hg]
  · rw [fresh_keeps net _ _ r h2 s2 hg]

/-- Method `stashConnection` releases the connection with one event: a send
to the pool or a close. -/
theorem stashConnection_trace {W : Type} (net : Net W) (h : LDAP) (c : Client) (s : World W) :
    ∃ ev, (ev = Event.PoolSend c ∨ ev = Event.Close c) ∧
      (h.stashConnection net c s).2.trace = s.trace ++ [ev] := by
  unfold LDAP.stashConnection
  split
  · split
    · exact ⟨_, Or.inl rfl, rfl⟩
    · exact ⟨_, Or.inr rfl, rfl⟩
  · exact ⟨_, Or.inr rfl, rfl⟩

set_option maxRecDepth 20000 in
/-- Claim C7, as stated, fails: the configuration of the examples with the
pool size 9223372036854775807, which the decoder accepts, has none of the
defects, and `Validate` neither succeeds nor returns an error: the `make` of
the pool panics before anything is dialed, and so does the resolver. -/
theorem validate_pool_panics :
    ¬ (testLDAPHuge.URL = none ∨ testLDAPHuge.BindDN = "" ∨ testLDAPHuge.BindPassword = "" ∨
        testLDAPHuge.BaseDN = "" ∨ testLDAPHuge.Timeout ≤ 0 ∨
        testLDAPHuge.ConnectionPoolSize ≤ 0) ∧
    testNet.makeChan testLDAPHuge.ConnectionPoolSize = false ∧
    (BackendDriver.ldap NewDriver).unmarshal testLib blobLDAPHuge = .ok (.ldap testLDAPHuge) ∧
    LDAP.Validate testNet testLDAPHuge ⟨0, []⟩ = none ∧
    Backend.UnmarshalJSON testLib testNet blobLDAPHuge ⟨0, []⟩ = none := by
  refine ⟨by decide, by decide, by rfl, by rfl, by rfl⟩

/-- Claim C7 (amended). `LDAP.Validate` fails closed. When the URL, the bind
DN, the bind password or the base DN is missing, or the timeout or the pool size
is not positive, it returns an error and leaves the client and the world as they
were: no pool is made and nothing is dialed. Otherwise it makes the pool. When
`make` returns, it acquires one connection and returns nil exactly when the
acquisition succeeds; the connection acquired is then the one element of the
pool, put there by a send. When `make` refuses the pool size, `Validate`
panics. -/
theorem validate_fails_closed {W : Type} (net : Net W) (h : LDAP) (s : World W) :
    ((h.URL = none ∨ h.BindDN = "" ∨ h.BindPassword = "" ∨ h.BaseDN = "" ∨
        h.Timeout ≤ 0 ∨ h.ConnectionPoolSize ≤ 0) →
      ∃ err, h.Validate net s = some (some err, h, s)) ∧
    (¬ (h.URL = none ∨ h.BindDN = "" ∨ h.BindPassword = "" ∨ h.BaseDN = "" ∨
        h.Timeout ≤ 0 ∨ h.ConnectionPoolSize ≤ 0) →
      net.makeChan h.ConnectionPoolSize = true →
      ∃ r s2,
        LDAP.getConnection net
            { h with pool := some { cap := h.ConnectionPoolSize.toNat, buf := [] } } s =
          some (r, { h with pool := some { cap := h.ConnectionPoolSize.toNat, buf := [] } }, s2) ∧
        ((∃ h3 s3, h.Validate net s = some (none, h3, s3)) ↔ ∃ c, r = .ok c) ∧
        (∀ c, r = .ok c →
          h.Validate net s =
            some (none,
              { h with pool := some { cap := h.ConnectionPoolSize.toNat, buf := [c] } },
              { net := s2.net, trace := s2.trace ++ [Event.PoolSend c] })) ∧
        (∀ e, r = .error e →
          h.Validate net s =
            some (some e,
              { h with pool := some { cap := h.ConnectionPoolSize.toNat, buf := [] } }, s2))) ∧
    (¬ (h.URL = none ∨ h.BindDN = "" ∨ h.BindPassword = "" ∨ h.BaseDN = "" ∨
        h.Timeout ≤ 0 ∨ h.ConnectionPoolSize ≤ 0) →
      net.makeChan h.ConnectionPoolSize = false → h.Validate net s = none) := by
  refine ⟨?_, ?_, ?_⟩
  · intro hd
    unfold LDAP.Validate
    by_cases hm : (LDAP.Validate.missing h).length > 0
    · simp only [hm, if_true]; exact ⟨_, rfl⟩
    · simp only [hm, if_false]
      by_cases ht : h.Timeout ≤ 0
      · simp only [ht, if_true]; exact ⟨_, rfl⟩
      · simp only [ht, if_false]
        by_cases hc : h.ConnectionPoolSize ≤ 0
        · simp only [hc, if_true]; exact ⟨_, rfl⟩
        · exfalso
          apply hm
          rcases hd with h1 | h1 | h1 | h1 | h1 | h1 <;>
            first
              | exact absurd h1 ht
              | exact absurd h1 hc
              | simp [LDAP.Validate.missing, h1]
  · intro hd hmk
    simp only [not_or] at hd
    obtain ⟨hU, hB, hP, hD, hT, hC⟩ := hd
    have hm : ¬ (LDAP.Validate.missing h).length > 0 := by
      simp [LDAP.Validate.missing, hU, hB, hP, hD]
    have hpos : 0 < h.ConnectionPoolSize.toNat := by omega
    generalize hh1 :
      ({ h with pool := some { cap := h.ConnectionPoolSize.toNat, buf := [] } } : LDAP) = h1
    have hU1 : h1.URL ≠ none := by rw [← hh1]; exact hU
    have hp1 : h1.pool = some { cap := h.ConnectionPoolSize.toNat, buf := [] } := by rw [← hh1]
    have hg := getConnection_empty net h1 s _ hp1
    cases hf : LDAP.getConnection.fresh net h1 s with
    | none => exact absurd hf (fresh_isSome net h1 s hU1)
    | some out =>
      obtain ⟨r, h2, s2⟩ := out
      have hk := fresh_keeps net h1 s r h2 s2 hf
      subst hk
      rw [hf] at hg
      refine ⟨r, s2, hg, ?_⟩
      unfold LDAP.Validate
      simp only [hm, if_false, hT, hC, hmk, Bool.true_eq_false, hh1, hg]
      cases r with
      | error e => simp
      | ok c =>
        have hst : LDAP.stashConnection net h2 c s2 =
            ({ h with pool := some { cap := h.ConnectionPoolSize.toNat, buf := [c] } },
              { net := s2.net, trace := s2.trace ++ [Event.PoolSend c] }) := by
          unfold LDAP.stashConnection
          rw [hp1]
          simp only [List.length_nil, hpos, if_true, List.nil_append]
          rw [← hh1]
        simp [hst]
  · intro hd hmk
    simp only [not_or] at hd
    obtain ⟨hU, hB, hP, hD, hT, hC⟩ := hd
    have hm : ¬ (LDAP.Validate.missing h).length > 0 := by
      simp [LDAP.Validate.missing, hU, hB, hP, hD]
    unfold LDAP.Validate
    simp only [hm, if_false, hT, hC, hmk, if_true]

/-- The examples of C7: a configuration without bind password is refused and
nothing is dialed; the complete configuration is validated by one dial and one
bind, and the connection is pooled. -/
theorem validate_fails_closed_witness :
    (∃ err, LDAP.Validate testNet { testLDAP with BindPassword := "" } ⟨0, []⟩ =
      some (some err, { testLDAP with BindPassword := "" }, ⟨0, []⟩)) ∧
    LDAP.Validate testNet testLDAP ⟨0, []⟩ =
      some (none, testLDAPReady,
        ⟨1, [Event.Dial "ldap.example.com:389", Event.Bind 0 "cn=svc" "svcpw",
             Event.PoolSend 0]⟩) := by
  refine ⟨(validate_fails_closed testNet _ _).1 (Or.inr (Or.inr (Or.inl rfl))), ?_⟩
  obtain ⟨r, s2, hg, _, hok, _⟩ :=
    (validate_fails_closed testNet testLDAP ⟨0, []⟩).2.1 (by decide) (by decide)
  have hv : LDAP.getConnection testNet
      { testLDAP with pool := some { cap := testLDAP.ConnectionPoolSize.toNat, buf := [] } }
      ⟨0, []⟩ =
      some (.ok 0, { testLDAP with pool := some { cap := 1, buf := [] } },
        ⟨1, [Event.Dial "ldap.example.com:389", Event.Bind 0 "cn=svc" "svcpw"]⟩) := rfl
  rw [hv] at hg
  simp only [Option.some.injEq, Prod.mk.injEq] at hg
  rw [hok 0 hg.1.symm, ← hg.2.2]
  rfl

/-- The search request is built from the configuration only. -/
theorem searchRequest_pool (h : LDAP) (p : Option Chan) (un : String) :
    LDAP.searchRequest { h with pool := p } un = h.searchRequest un := rfl

/-- Claim C8. When the request carries basic-auth credentials, a connection
`c` is acquired and the search succeeds: with no entry `LDAP.Authenticate`
returns the empty identity and no error, with more than one entry it returns
the empty identity and the error "too many entries returned". In both cases
the only things done after the acquisition are the search and one release of
`c` (a send to the pool or a close): no bind is attempted. -/
theorem authenticate_none_or_many {W : Type} (net : Net W) (h : LDAP) (r : Request)
    (s : World W) (un pw : String) (c : Client) (h1 : LDAP) (s1 : World W)
    (entries : List Entry) (w2 : W)
    (hcred : r.BasicAuth = some (un, pw))
    (hconn : h.getConnection net s = some (.ok c, h1, s1))
    (hsearch : net.Search c (h.searchRequest un) s1.net = (.ok entries, w2)) :
    (∃ ev, (ev = Event.PoolSend c ∨ ev = Event.Close c) ∧
      (h1.stashConnection net c
          ⟨w2, s1.trace ++ [Event.Search c (h.searchRequest un)]⟩).2.trace =
        s1.trace ++ [Event.Search c (h.searchRequest un), ev]) ∧
    (entries.length = 0 →
      h.Authenticate net r s =
        some (("", none),
          h1.stashConnection net c ⟨w2, s1.trace ++ [Event.Search c (h.searchRequest un)]⟩)) ∧
    (entries.length > 1 →
      h.Authenticate net r s =
        some (("", some (Error.New "too many entries returned")),
          h1.stashConnection net c ⟨w2, s1.trace ++ [Event.Search c (h.searchRequest un)]⟩)) := by
  have hcfg := getConnection_config net h s _ h1 s1 hconn
  have hsr : h1.searchRequest un = h.searchRequest un := by
    rw [hcfg]; exact searchRequest_pool h _ un
  refine ⟨?_, ?_, ?_⟩
  · obtain ⟨ev, hev, htr⟩ := stashConnection_trace net h1 c
      ⟨w2, s1.trace ++ [Event.Search c (h.searchRequest un)]⟩
    exact ⟨ev, hev, by rw [htr]; simp⟩
  · intro h0
    have he : entries = [] := List.length_eq_zero.mp h0
    subst he
    simp only [LDAP.Authenticate, hcred, hconn, LDAP.Authenticate.body, hsr, hsearch]
  · intro h2
    match entries, h2 with
    | e1 :: e2 :: rest, _ =>
      simp only [LDAP.Authenticate, hcred, hconn, LDAP.Authenticate.body, hsr, hsearch]

theorem authenticate_none_or_many_witness :
    (testRequest "twins" "x").BasicAuth = some ("twins", "x") ∧
    testLDAPReady.getConnection testNet ⟨1, []⟩ =
      some (.ok 0, { testLDAP with pool := some { cap := 1, buf := [] } },
        ⟨1, [Event.PoolRecv 0, Event.Bind 0 "cn=svc" "svcpw"]⟩) ∧
    testNet.Search 0 (testLDAPReady.searchRequest "twins") 1 =
      (.ok [{ DN := "cn=twin1" }, { DN := "cn=twin2" }], 1) ∧
    testLDAPReady.Authenticate testNet (testRequest "twins" "x") ⟨1, []⟩ =
      some (("", some (Error.New "too many entries returned")), testLDAPReady,
        ⟨1, [Event.PoolRecv 0, Event.Bind 0 "cn=svc" "svcpw",
             Event.Search 0 (testLDAPReady.searchRequest "twins"), Event.PoolSend 0]⟩) :=
  ⟨rfl, rfl, rfl,
    (authenticate_none_or_many testNet testLDAPReady (testRequest "twins" "x") ⟨1, []⟩
      "twins" "x" 0 _ _ _ 1 rfl rfl rfl).2.2 (by decide)⟩

/-- Claim C9. When the request carries basic-auth credentials with password
`pw`, a connection `c` is acquired and the search returns exactly one entry,
`LDAP.Authenticate` binds `c` as the DN of that entry with `pw`, and returns:
that DN and no error when the bind succeeds; the empty identity and no error
when the bind fails with result code 49 (invalid credentials); the empty
identity and an error for any other bind failure. On each of these paths the
search and the bind are followed by exactly one release of `c`, a send to the
pool or a close. -/
theorem authenticate_bind_outcome {W : Type} (net : Net W) (h : LDAP) (r : Request)
    (s : World W) (un pw : String) (c : Client) (h1 : LDAP) (s1 : World W)
    (entry : Entry) (w2 : W)
    (hcred : r.BasicAuth = some (un, pw))
    (hconn : h.getConnection net s = some (.ok c, h1, s1))
    (hsearch : net.Search c (h.searchRequest un) s1.net = (.ok [entry], w2)) :
    (∃ ev, (ev = Event.PoolSend c ∨ ev = Event.Close c) ∧
      (h1.stashConnection net c
          ⟨(net.Bind c entry.DN pw w2).2,
            s1.trace ++ [Event.Search c (h.searchRequest un), Event.Bind c entry.DN pw]⟩).2.trace =
        s1.trace ++ [Event.Search c (h.searchRequest un), Event.Bind c entry.DN pw, ev]) ∧
    ((net.Bind c entry.DN pw w2).1 = none →
      h.Authenticate net r s =
        some ((entry.DN, none),
          h1.stashConnection net c
            ⟨(net.Bind c entry.DN pw w2).2,
              s1.trace ++ [Event.Search c (h.searchRequest un), Event.Bind c entry.DN pw]⟩)) ∧
    (∀ err, (net.Bind c entry.DN pw w2).1 = some err →
      IsErrorWithCode err LDAPResultInvalidCredentials = true →
      h.Authenticate net r s =
        some (("", none),
          h1.stashConnection net c
            ⟨(net.Bind c entry.DN pw w2).2,
              s1.trace ++ [Event.Search c (h.searchRequest un), Event.Bind c entry.DN pw]⟩)) ∧
    (∀ err, (net.Bind c entry.DN pw w2).1 = some err →
      IsErrorWithCode err LDAPResultInvalidCredentials = false →
      h.Authenticate net r s =
        some (("", some (Error.Wrapf "bind with %q: %v" [entry.DN] err)),
          h1.stashConnection net c
            ⟨(net.Bind c entry.DN pw w2).2,
              s1.trace ++ [Event.Search c (h.searchRequest un), Event.Bind c entry.DN pw]⟩)) := by
  have hcfg := getConnection_config net h s _ h1 s1 hconn
  have hsr : h1.searchRequest un = h.searchRequest un := by
    rw [hcfg]; exact searchRequest_pool h _ un
  refine ⟨?_, ?_, ?_, ?_⟩
  · obtain ⟨ev, hev, htr⟩ := stashConnection_trace net h1 c
      ⟨(net.Bind c entry.DN pw w2).2,
        s1.trace ++ [Event.Search c (h.searchRequest un), Event.Bind c entry.DN pw]⟩
    exact ⟨ev, hev, by rw [htr]; simp⟩
  · intro hb
    simp [LDAP.Authenticate, hcred, hconn, LDAP.Authenticate.body, hsr, hsearch, hb]
  · intro err hb hcode
    simp [LDAP.Authenticate, hcred, hconn, LDAP.Authenticate.body, hsr, hsearch, hb, hcode]
  · intro err hb hcode
    simp [LDAP.Authenticate, hcred, hconn, LDAP.Authenticate.body, hsr, hsearch, hb, hcode]

theorem authenticate_bind_outcome_witness :
    (testRequest "alice" "secret").BasicAuth = some ("alice", "secret") ∧
    testLDAPReady.getConnection testNet ⟨1, []⟩ =
      some (.ok 0, { testLDAP with pool := some { cap := 1, buf := [] } },
        ⟨1, [Event.PoolRecv 0, Event.Bind 0 "cn=svc" "svcpw"]⟩) ∧
    testNet.Search 0 (testLDAPReady.searchRequest "alice") 1 =
      (.ok [{ DN := "cn=alice,dc=example" }], 1) ∧
    testLDAPReady.Authenticate testNet (testRequest "alice" "secret") ⟨1, []⟩ =
      some (("cn=alice,dc=example", none), testLDAPReady,
        ⟨1, [Event.PoolRecv 0, Event.Bind 0 "cn=svc" "svcpw",
             Event.Search 0 (testLDAPReady.searchRequest "alice"),
             Event.Bind 0 "cn=alice,dc=example" "secret", Event.PoolSend 0]⟩) :=
  ⟨rfl, rfl, rfl,
    (authenticate_bind_outcome testNet testLDAPReady (testRequest "alice" "secret") ⟨1, []⟩
      "alice" "secret" 0 _ _ { DN := "cn=alice,dc=example" } 1 rfl rfl rfl).2.1 rfl⟩

/-- Claim C10, evaluated at a URL without a port. `net.SplitHostPort` fails on
a host without a port and returns two empty strings; `getConnection` drops the
error, so the host is lost: for `ldap://ldap.example.com` the address dialed is
":389", not "ldap.example.com:389". -/
theorem dial_without_port_drops_host :
    SplitHostPort "ldap.example.com" = ("", "", some (Error.Lib "missing port in address")) ∧
    LDAP.getConnection.target { Scheme := "ldap", Host := "ldap.example.com" } =
      (false, ":389") ∧
    LDAP.getConnection.target { Scheme := "ldaps", Host := "ldap.example.com" } =
      (true, ":636") ∧
    (LDAP.getConnection testNet
        { testLDAP with URL := some { Scheme := "ldap", Host := "ldap.example.com" } }
        ⟨0, []⟩).map (fun out => out.2.2.trace) =
      some [Event.Dial ":389", Event.Bind 0 "cn=svc" "svcpw"] := by
  refine ⟨by decide, by decide, by decide, by rfl⟩

end ldap

/-! ### The resolver -/

namespace ldap
/-- Method `Validate` of the directory client panics only in the `make` of the
pool. -/
theorem validate_panics {W : Type} (net : Net W) (h : LDAP) (s : World W)
    (hn : h.Validate net s = none) :
    0 < h.ConnectionPoolSize ∧ net.makeChan h.ConnectionPoolSize = false := by
  unfold LDAP.Validate at hn
  simp only at hn
  split at hn
  · simp at hn
  · split at hn
    · simp at hn
    · split at hn
      · simp at hn
      · rename_i hm _ hc
        split at hn
        · rename_i hmk
          exact ⟨by omega, hmk⟩
        · exfalso
          have hU : h.URL ≠ none := by
            intro hU
            apply hm
            simp [LDAP.Validate.missing, hU]
          have hg := getConnection_empty net
            { h with pool := some { cap := h.ConnectionPoolSize.toNat, buf := [] } } s _ rfl
          have hf := fresh_isSome net
            { h with pool := some { cap := h.ConnectionPoolSize.toNat, buf := [] } } s hU
          rw [← hg] at hf
          split at hn
          · rename_i heq; exact absurd heq hf
          · simp at hn
          · simp at hn
end ldap

/-- Validation keeps the dynamic type of a backend driver. -/
theorem backend_validate_name {W : Type} (net : ldap.Net W) (d d2 : BackendDriver)
    (s s1 : ldap.World W) (err : Option Error)
    (hv : d.Validate net s = some (err, d2, s1)) : d2.BackendName = d.BackendName := by
  cases d with
  | ldap h =>
    simp only [BackendDriver.Validate] at hv
    split at hv
    · simp at hv
    · simp only [Option.some.injEq, Prod.mk.injEq] at hv
      rw [← hv.2.1]; rfl
  | gitlabci h =>
    simp only [BackendDriver.Validate, Option.some.injEq, Prod.mk.injEq] at hv
    rw [← hv.2.1]
  | simple h =>
    simp only [BackendDriver.Validate, Option.some.injEq, Prod.mk.injEq] at hv
    rw [← hv.2.1]
  | upstream h =>
    simp only [BackendDriver.Validate, Option.some.injEq, Prod.mk.injEq] at hv
    rw [← hv.2.1]

/-- A mapped result is a success only for a success. -/
theorem except_map_ok {α β : Type} (f : α → β) (x : Except Error α) (y : β)
    (h : Except.map f x = .ok y) : ∃ a, x = .ok a ∧ y = f a := by
  cases x with
  | error e => simp [Except.map] at h
  | ok a => exact ⟨a, rfl, by simpa [Except.map] using h.symm⟩

/-- Decoding keeps the dynamic type of a backend driver. -/
theorem backend_unmarshal_name (lib : Lib) (data : Blob) (d d1 : BackendDriver)
    (hu : d.unmarshal lib data = .ok d1) : d1.BackendName = d.BackendName := by
  cases d <;> simp only [BackendDriver.unmarshal] at hu <;>
    (obtain ⟨a, _, rfl⟩ := except_map_ok _ _ _ hu; rfl)

/-- The switch of `Backend.UnmarshalJSON` picks the driver registered for the
tag, and knows four tags. -/
theorem backend_newDriver_name (t : String) (d : BackendDriver)
    (h : Backend.UnmarshalJSON.newDriver t = some d) :
    d.BackendName = t ∧
      t ∈ [gitlabci.BackendName, ldap.BackendName, simple.BackendName, upstream.BackendName] := by
  unfold Backend.UnmarshalJSON.newDriver at h
  split at h
  · rename_i ht; simp only [Option.some.injEq] at h; subst h; simp [BackendDriver.BackendName, ht]
  · split at h
    · rename_i ht; simp only [Option.some.injEq] at h; subst h
      simp [BackendDriver.BackendName, ht]
    · split at h
      · rename_i ht; simp only [Option.some.injEq] at h; subst h
        simp [BackendDriver.BackendName, ht]
      · split at h
        · rename_i ht; simp only [Option.some.injEq] at h; subst h
          simp [BackendDriver.BackendName, ht]
        · simp at h

/-- The switch of `Backend.UnmarshalJSON` takes the default case for any other
tag. -/
theorem backend_newDriver_none (t : String)
    (h : t ∉ [gitlabci.BackendName, ldap.BackendName, simple.BackendName,
      upstream.BackendName]) :
    Backend.UnmarshalJSON.newDriver t = none := by
  simp only [List.mem_cons, List.mem_singleton, not_or, List.not_mem_nil, or_false] at h
  simp [Backend.UnmarshalJSON.newDriver, h.1, h.2.1, h.2.2.1, h.2.2.2]

/-- What a successful `Backend.UnmarshalJSON` went through. -/
theorem backend_unmarshalJSON_ok {W : Type} (lib : Lib) (net : ldap.Net W) (data : Blob)
    (s s1 : ldap.World W) (b : Backend BackendDriver)
    (h : Backend.UnmarshalJSON lib net data s = some (.ok b, s1)) :
    ¬ data.raw.utf8ByteSize < 10 ∧ unmarshalTag "type" data = .ok b.Type_ ∧
      ∃ d0 d1, Backend.UnmarshalJSON.newDriver b.Type_ = some d0 ∧
        d0.unmarshal lib data = .ok d1 ∧ d1.Validate net s = some (none, b.driver, s1) := by
  unfold Backend.UnmarshalJSON at h
  split at h
  · simp at h
  · rename_i hlen
    refine ⟨hlen, ?_⟩
    split at h
    · simp at h
    · rename_i t ht
      split at h
      · simp at h
      · rename_i d0 hd0
        split at h
        · simp at h
        · rename_i d1 hd1
          split at h
          · simp at h
          · simp at h
          · rename_i d2 s2 hv
            simp only [Option.some.injEq, Prod.mk.injEq, Except.ok.injEq] at h
            obtain ⟨hb, hs⟩ := h
            subst hb hs
            exact ⟨ht, d0, d1, hd0, hd1, hv⟩

/-- Decoding keeps the dynamic type of a failure handler. -/
theorem failure_unmarshal_mode (lib : Lib) (data : Blob) (d d1 : FailureDriver)
    (hu : d.unmarshal lib data = .ok d1) : d1.FailureMode = d.FailureMode := by
  cases d <;> simp only [FailureDriver.unmarshal] at hu <;>
    (obtain ⟨a, _, rfl⟩ := except_map_ok _ _ _ hu; rfl)

/-- The switch of `Failure.UnmarshalJSON` picks the handler registered for the
tag, and knows three tags. -/
theorem failure_newDriver_mode (t : String) (d : FailureDriver)
    (h : Failure.UnmarshalJSON.newDriver t = some d) :
    d.FailureMode = t ∧ t ∈ [basic.FailureMode, redirect.FailureMode, status.FailureMode] := by
  unfold Failure.UnmarshalJSON.newDriver at h
  split at h
  · rename_i ht; simp only [Option.some.injEq] at h; subst h; simp [FailureDriver.FailureMode, ht]
  · split at h
    · rename_i ht; simp only [Option.some.injEq] at h; subst h
      simp [FailureDriver.FailureMode, ht]
    · split at h
      · rename_i ht; simp only [Option.some.injEq] at h; subst h
        simp [FailureDriver.FailureMode, ht]
      · simp at h

/-- The switch of `Failure.UnmarshalJSON` takes the default case for any other
tag. -/
theorem failure_newDriver_none (t : String)
    (h : t ∉ [basic.FailureMode, redirect.FailureMode, status.FailureMode]) :
    Failure.UnmarshalJSON.newDriver t = none := by
  simp only [List.mem_cons, List.mem_singleton, not_or, List.not_mem_nil, or_false] at h
  simp [Failure.UnmarshalJSON.newDriver, h.1, h.2.1, h.2.2]

/-- What a successful `Failure.UnmarshalJSON` went through. -/
theorem failure_unmarshalJSON_ok (lib : Lib) (data : Blob) (f : Failure)
    (h : Failure.UnmarshalJSON lib data = .ok f) :
    ¬ data.raw.utf8ByteSize < 10 ∧ unmarshalTag "mode" data = .ok f.Mode ∧
      ∃ d0 d1, Failure.UnmarshalJSON.newDriver f.Mode = some d0 ∧
        d0.unmarshal lib data = .ok d1 ∧ d1.Validate = none ∧ f.driver = some d1 := by
  unfold Failure.UnmarshalJSON at h
  split at h
  · simp at h
  · rename_i hlen
    refine ⟨hlen, ?_⟩
    split at h
    · simp at h
    · rename_i t ht
      split at h
      · simp at h
      · rename_i d0 hd0
        split at h
        · simp at h
        · rename_i d1 hd1
          split at h
          · simp at h
          · rename_i hv
            simp only [Except.ok.injEq] at h
            subst h
            exact ⟨ht, d0, d1, hd0, hd1, hv, rfl⟩

/-- Claim C6. The resolver invariant. If `Backend.UnmarshalJSON` returns no
error, the stored type is the tag read from the blob and one of the four
registered tags, the stored driver is of the variant registered for that tag,
and it is what `Validate` left of the driver decoded from the blob, `Validate`
having returned nil. A blob whose tag is malformed or not registered, whose
fields do not decode, or whose driver fails validation is rejected, and the
method panics only when the driver decoded is a directory client and the
`make` of its pool panics. The same holds for `Failure.UnmarshalJSON` and its
three tags. -/
theorem unmarshal_resolves {W : Type} (lib : Lib) (net : ldap.Net W) (data : Blob)
    (s : ldap.World W) :
    (∀ b s1, Backend.UnmarshalJSON lib net data s = some (.ok b, s1) →
      b.Type_ ∈ [gitlabci.BackendName, ldap.BackendName, simple.BackendName,
        upstream.BackendName] ∧
      unmarshalTag "type" data = .ok b.Type_ ∧
      b.driver.BackendName = b.Type_ ∧
      ∃ d0 d1, Backend.UnmarshalJSON.newDriver b.Type_ = some d0 ∧
        d0.unmarshal lib data = .ok d1 ∧ d1.Validate net s = some (none, b.driver, s1)) ∧
    (∀ e, unmarshalTag "type" data = .error e →
      ∃ err, Backend.UnmarshalJSON lib net data s = some (.error err, s)) ∧
    (∀ t, unmarshalTag "type" data = .ok t →
      t ∉ [gitlabci.BackendName, ldap.BackendName, simple.BackendName, upstream.BackendName] →
      ∃ err, Backend.UnmarshalJSON lib net data s = some (.error err, s)) ∧
    (∀ t d0 e, unmarshalTag "type" data = .ok t →
      Backend.UnmarshalJSON.newDriver t = some d0 → d0.unmarshal lib data = .error e →
      ∃ err, Backend.UnmarshalJSON lib net data s = some (.error err, s)) ∧
    (∀ t d0 d1 e d2 s1, unmarshalTag "type" data = .ok t →
      Backend.UnmarshalJSON.newDriver t = some d0 → d0.unmarshal lib data = .ok d1 →
      d1.Validate net s = some (some e, d2, s1) →
      ∃ err s2, Backend.UnmarshalJSON lib net data s = some (.error err, s2)) ∧
    (Backend.UnmarshalJSON lib net data s = none →
      ∃ t d0 h, unmarshalTag "type" data = .ok t ∧
        Backend.UnmarshalJSON.newDriver t = some d0 ∧
        d0.unmarshal lib data = .ok (.ldap h) ∧
        0 < h.ConnectionPoolSize ∧ net.makeChan h.ConnectionPoolSize = false) ∧
    (∀ f, Failure.UnmarshalJSON lib data = .ok f →
      f.Mode ∈ [basic.FailureMode, redirect.FailureMode, status.FailureMode] ∧
      unmarshalTag "mode" data = .ok f.Mode ∧
      ∃ d0 d1, Failure.UnmarshalJSON.newDriver f.Mode = some d0 ∧
        d0.unmarshal lib data = .ok d1 ∧ f.driver = some d1 ∧
        d1.FailureMode = f.Mode ∧ d1.Validate = none) ∧
    (∀ e, unmarshalTag "mode" data = .error e →
      ∃ err, Failure.UnmarshalJSON lib data = .error err) ∧
    (∀ t, unmarshalTag "mode" data = .ok t →
      t ∉ [basic.FailureMode, redirect.FailureMode, status.FailureMode] →
      ∃ err, Failure.UnmarshalJSON lib data = .error err) ∧
    (∀ t d0 e, unmarshalTag "mode" data = .ok t →
      Failure.UnmarshalJSON.newDriver t = some d0 → d0.unmarshal lib data = .error e →
      ∃ err, Failure.UnmarshalJSON lib data = .error err) ∧
    (∀ t d0 d1 e, unmarshalTag "mode" data = .ok t →
      Failure.UnmarshalJSON.newDriver t = some d0 → d0.unmarshal lib data = .ok d1 →
      d1.Validate = some e →
      ∃ err, Failure.UnmarshalJSON lib data = .error err) := by
  refine ⟨?_, ?_, ?_, ?_, ?_, ?_, ?_, ?_, ?_, ?_, ?_⟩
  · intro b s1 h
    obtain ⟨_, ht, d0, d1, hd0, hd1, hv⟩ := backend_unmarshalJSON_ok lib net data s s1 b h
    obtain ⟨hn, hmem⟩ := backend_newDriver_name _ _ hd0
    refine ⟨hmem, ht, ?_, d0, d1, hd0, hd1, hv⟩
    rw [backend_validate_name net d1 b.driver s s1 none hv,
      backend_unmarshal_name lib data d0 d1 hd1, hn]
  · intro e he
    unfold Backend.UnmarshalJSON
    split
    · exact ⟨_, rfl⟩
    · simp only [he]; exact ⟨_, rfl⟩
  · intro t ht hmem
    unfold Backend.UnmarshalJSON
    split
    · exact ⟨_, rfl⟩
    · simp only [ht, backend_newDriver_none t hmem]; exact ⟨_, rfl⟩
  · intro t d0 e ht hd0 hd1
    unfold Backend.UnmarshalJSON
    split
    · exact ⟨_, rfl⟩
    · simp only [ht, hd0, hd1]; exact ⟨_, rfl⟩
  · intro t d0 d1 e d2 s1 ht hd0 hd1 hv
    unfold Backend.UnmarshalJSON
    split
    · exact ⟨_, _, rfl⟩
    · simp only [ht, hd0, hd1, hv]; exact ⟨_, _, rfl⟩
  · intro hnone
    unfold Backend.UnmarshalJSON at hnone
    split at hnone
    · simp at hnone
    · split at hnone
      · simp at hnone
      · rename_i t ht
        split at hnone
        · simp at hnone
        · rename_i d0 hd0
          split at hnone
          · simp at hnone
          · rename_i d1 hd1
            split at hnone
            · rename_i hv
              cases d1 with
              | ldap h =>
                simp only [BackendDriver.Validate] at hv
                split at hv
                · rename_i hn
                  exact ⟨t, d0, h, ht, hd0, hd1, ldap.validate_panics net h s hn⟩
                · simp at hv
              | gitlabci h => simp [BackendDriver.Validate] at hv
              | simple h => simp [BackendDriver.Validate] at hv
              | upstream h => simp [BackendDriver.Validate] at hv
            · simp at hnone
            · simp at hnone
  · intro f h
    obtain ⟨_, ht, d0, d1, hd0, hd1, hv, hf⟩ := failure_unmarshalJSON_ok lib data f h
    obtain ⟨hn, hmem⟩ := failure_newDriver_mode _ _ hd0
    refine ⟨hmem, ht, d0, d1, hd0, hd1, hf, ?_, hv⟩
    rw [failure_unmarshal_mode lib data d0 d1 hd1, hn]
  · intro e he
    unfold Failure.UnmarshalJSON
    split
    · exact ⟨_, rfl⟩
    · simp only [he]; exact ⟨_, rfl⟩
  · intro t ht hmem
    unfold Failure.UnmarshalJSON
    split
    · exact ⟨_, rfl⟩
    · simp only [ht, failure_newDriver_none t hmem]; exact ⟨_, rfl⟩
  · intro t d0 e ht hd0 hd1
    unfold Failure.UnmarshalJSON
    split
    · exact ⟨_, rfl⟩
    · simp only [ht, hd0, hd1]; exact ⟨_, rfl⟩
  · intro t d0 d1 e ht hd0 hd1 hv
    unfold Failure.UnmarshalJSON
    split
    · exact ⟨_, rfl⟩
    · simp only [ht, hd0, hd1, hv]; exact ⟨_, rfl⟩


/-- Members that name no field leave the struct as it is. -/
theorem decodeStruct_skip {T : Type} (fields : List String)
    (set : String → Json → T → Except Error T) (goType : String)
    (members : List (String × Json)) (t : T)
    (h : ∀ kv ∈ members, fieldFor fields kv.1 = none) :
    decodeStruct fields set goType (.obj members) t = .ok t := by
  unfold decodeStruct
  simp only
  induction members with
  | nil => rfl
  | cons kv rest ih =>
    rw [List.foldlM_cons, h kv (List.mem_cons_self _ _)]
    exact ih (fun kv1 hk => h kv1 (List.mem_cons_of_mem _ hk))

/-- The keys of a marshalled struct are keys of its fields. -/
theorem marshalStruct_keys (P : String → Prop) (fs : List (Option (String × Json)))
    (h : ∀ o ∈ fs, ∀ kv, o = some kv → P kv.1) :
    ∀ kv ∈ fs.filterMap id, P kv.1 := by
  intro kv hk
  rw [List.mem_filterMap] at hk
  obtain ⟨o, ho, hid⟩ := hk
  exact h o ho kv hid

/-- A written `string` member has the key of its field. -/
theorem omitString_key (n v : String) (kv : String × Json) (h : omitString n v = some kv) :
    kv.1 = n := by
  unfold omitString at h
  split at h
  · simp at h
  · simp only [Option.some.injEq] at h; rw [← h]

/-- A written `bool` member has the key of its field. -/
theorem omitBool_key (n : String) (v : Bool) (kv : String × Json)
    (h : omitBool n v = some kv) : kv.1 = n := by
  unfold omitBool at h
  split at h
  · simp only [Option.some.injEq] at h; rw [← h]
  · simp at h

/-- A written `int` member has the key of its field. -/
theorem omitInt_key (n : String) (v : Int) (kv : String × Json)
    (h : omitInt n v = some kv) : kv.1 = n := by
  unfold omitInt at h
  split at h
  · simp at h
  · simp only [Option.some.injEq] at h; rw [← h]

/-- A written URL member has the key of its field. -/
theorem omitURL_key (lib : Lib) (n : String) (v : Option URL) (kv : String × Json)
    (h : omitURL lib n v = some kv) : kv.1 = n := by
  unfold omitURL at h
  cases v with
  | none => simp at h
  | some u => simp only [Option.map_some', Option.some.injEq] at h; rw [← h]

/-- A written duration member has the key of its field. -/
theorem durationMember_key (lib : Lib) (n : String) (v : Int) (kv : String × Json)
    (h : durationMember lib n v = some kv) : kv.1 = n := by
  unfold durationMember at h
  simp only [Option.some.injEq] at h; rw [← h]

/-- No driver writes a member that the tag field "type" would read. -/
theorem backend_marshal_untagged (lib : Lib) (d : BackendDriver) (raw : String) :
    unmarshalTag "type" ⟨raw, .ok (d.marshal lib)⟩ = .ok "" := by
  unfold unmarshalTag unmarshalInto
  simp only
  cases d with
  | gitlabci h =>
    apply decodeStruct_skip
    apply marshalStruct_keys (fun k => fieldFor ["type"] k = none)
    intro o ho kv hkv
    simp only [List.mem_cons, List.mem_singleton, List.not_mem_nil, or_false] at ho
    rcases ho with rfl | rfl | rfl | rfl
    · rw [omitURL_key _ _ _ _ hkv]; decide
    · rw [durationMember_key _ _ _ _ hkv]; decide
    · rw [omitString_key _ _ _ hkv]; decide
    · rw [omitBool_key _ _ _ hkv]; decide
  | ldap h =>
    apply decodeStruct_skip
    apply marshalStruct_keys (fun k => fieldFor ["type"] k = none)
    intro o ho kv hkv
    simp only [List.mem_cons, List.mem_singleton, List.not_mem_nil, or_false] at ho
    rcases ho with rfl | rfl | rfl | rfl | rfl | rfl | rfl | rfl | rfl | rfl
    · rw [omitURL_key _ _ _ _ hkv]; decide
    · rw [omitString_key _ _ _ hkv]; decide
    · rw [omitString_key _ _ _ hkv]; decide
    · rw [omitString_key _ _ _ hkv]; decide
    · rw [omitString_key _ _ _ hkv]; decide
    · rw [omitString_key _ _ _ hkv]; decide
    · rw [omitBool_key _ _ _ hkv]; decide
    · rw [omitBool_key _ _ _ hkv]; decide
    · rw [durationMember_key _ _ _ _ hkv]; decide
    · rw [omitInt_key _ _ _ hkv]; decide
  | simple h =>
    apply decodeStruct_skip
    apply marshalStruct_keys (fun k => fieldFor ["type"] k = none)
    intro o ho kv hkv
    simp only [List.mem_cons, List.mem_singleton, List.not_mem_nil, or_false] at ho
    rcases ho with rfl | rfl
    · rw [omitBool_key _ _ _ hkv]; decide
    · split at hkv
      · simp at hkv
      · simp only [Option.some.injEq] at hkv; rw [← hkv]; show fieldFor ["type"] "credentials" = none; decide
  | upstream h =>
    apply decodeStruct_skip
    apply marshalStruct_keys (fun k => fieldFor ["type"] k = none)
    intro o ho kv hkv
    simp only [List.mem_cons, List.mem_singleton, List.not_mem_nil, or_false] at ho
    rcases ho with rfl | rfl | rfl | rfl | rfl | rfl | rfl
    · rw [omitURL_key _ _ _ _ hkv]; decide
    · rw [durationMember_key _ _ _ _ hkv]; decide
    · rw [omitBool_key _ _ _ hkv]; decide
    · rw [omitBool_key _ _ _ hkv]; decide
    · rw [omitBool_key _ _ _ hkv]; decide
    · cases hm : h.Match with
      | none => simp [hm] at hkv
      | some m =>
        simp only [hm, Option.map_some', Option.some.injEq] at hkv; rw [← hkv]
        show fieldFor ["type"] "match" = none; decide
    · simp only [Option.some.injEq] at hkv; rw [← hkv]
      show fieldFor ["type"] "forward" = none; decide

/-- No failure handler writes a member that the tag field "mode" would read. -/
theorem failure_marshal_untagged (lib : Lib) (d : FailureDriver) (raw : String) :
    unmarshalTag "mode" ⟨raw, .ok (d.marshal lib)⟩ = .ok "" := by
  unfold unmarshalTag unmarshalInto
  simp only
  cases d with
  | basic h =>
    apply decodeStruct_skip
    apply marshalStruct_keys (fun k => fieldFor ["mode"] k = none)
    intro o ho kv hkv
    simp only [List.mem_singleton] at ho
    subst ho
    rw [omitString_key _ _ _ hkv]; decide
  | redirect h =>
    apply decodeStruct_skip
    apply marshalStruct_keys (fun k => fieldFor ["mode"] k = none)
    intro o ho kv hkv
    simp only [List.mem_cons, List.mem_singleton, List.not_mem_nil, or_false] at ho
    rcases ho with rfl | rfl
    · rw [omitURL_key _ _ _ _ hkv]; decide
    · rw [omitInt_key _ _ _ hkv]; decide
  | status h =>
    apply decodeStruct_skip
    apply marshalStruct_keys (fun k => fieldFor ["mode"] k = none)
    intro o ho kv hkv
    simp only [List.mem_singleton] at ho
    subst ho
    rw [omitInt_key _ _ _ hkv]; decide

/-- Whatever bytes encode it, the document that `Backend.MarshalJSON` writes
is rejected by `Backend.UnmarshalJSON`: it is too short, or its tag reads as
the empty string, which is no registered backend. -/
theorem backend_remarshal_rejected {W : Type} (lib : Lib) (net : ldap.Net W)
    (b : Backend BackendDriver) (raw : String) (s : ldap.World W) :
    ∃ err, Backend.UnmarshalJSON lib net ⟨raw, .ok (b.MarshalJSON lib)⟩ s =
      some (.error err, s) := by
  unfold Backend.UnmarshalJSON
  split
  · exact ⟨_, rfl⟩
  · simp only [Backend.MarshalJSON, backend_marshal_untagged lib b.driver raw]
    exact ⟨_, rfl⟩

/-- Whatever bytes encode it, the document that `Failure.MarshalJSON` writes
for a resolved handler is rejected by `Failure.UnmarshalJSON`. -/
theorem failure_remarshal_rejected (lib : Lib) (mode : String) (d : FailureDriver)
    (raw : String) :
    ∃ err, Failure.UnmarshalJSON lib
      ⟨raw, .ok (Failure.MarshalJSON lib { Mode := mode, driver := some d })⟩ = .error err := by
  unfold Failure.UnmarshalJSON
  split
  · exact ⟨_, rfl⟩
  · simp only [Failure.MarshalJSON, failure_marshal_untagged lib d raw]
    exact ⟨_, rfl⟩

/-- Claim C4, evaluated at the configuration of a credential table and at the
configuration of the status handler. Both are accepted; the resolved value is
serialised without its tag, as the fields of the driver alone; the serialised
document reads back with the empty tag and is rejected, whatever its bytes. -/
theorem marshal_drops_tag :
    Backend.UnmarshalJSON testLib testNet blobSimple ⟨0, []⟩ =
      some (.ok { Type_ := "simple",
                  driver := .simple { Credentials := [("username", "password")] } }, ⟨0, []⟩) ∧
    Backend.MarshalJSON testLib
        { Type_ := "simple", driver := .simple { Credentials := [("username", "password")] } } =
      Json.obj [("credentials", Json.obj [("username", Json.str "password")])] ∧
    (∀ raw, ∃ err,
      Backend.UnmarshalJSON testLib testNet
        ⟨raw, .ok (Json.obj [("credentials", Json.obj [("username", Json.str "password")])])⟩
        ⟨0, []⟩ = some (.error err, ⟨0, []⟩)) ∧
    Backend.UnmarshalJSON testLib testNet
        ⟨"\x7b\"credentials\":\x7b\"username\":\"password\"\x7d\x7d",
          .ok (Json.obj [("credentials", Json.obj [("username", Json.str "password")])])⟩
        ⟨0, []⟩ =
      some (.error (Error.Errorf
        "invalid reauth configuration, error: unknown backend %q, config: %s"
        ["", "\x7b\"credentials\":\x7b\"username\":\"password\"\x7d\x7d"]), ⟨0, []⟩) ∧
    Failure.UnmarshalJSON testLib blobStatus =
      .ok { Mode := "status", driver := some (.status { Code := 403 }) } ∧
    Failure.MarshalJSON testLib { Mode := "status", driver := some (.status { Code := 403 }) } =
      Json.obj [("code", Json.int 403)] ∧
    (∀ raw, ∃ err,
      Failure.UnmarshalJSON testLib ⟨raw, .ok (Json.obj [("code", Json.int 403)])⟩ =
        .error err) := by
  refine ⟨rfl, rfl, ?_, rfl, rfl, rfl, ?_⟩
  · intro raw
    exact backend_remarshal_rejected testLib testNet
      { Type_ := "simple", driver := .simple { Credentials := [("username", "password")] } }
      raw ⟨0, []⟩
  · intro raw
    exact failure_remarshal_rejected testLib "status" (.status { Code := 403 }) raw

set_option maxRecDepth 10000 in
theorem unmarshal_resolves_witness :
    Backend.UnmarshalJSON testLib testNet blobLDAP ⟨0, []⟩ =
      some (.ok { Type_ := "ldap", driver := .ldap testLDAPReady },
        ⟨1, [ldap.Event.Dial "ldap.example.com:389", ldap.Event.Bind 0 "cn=svc" "svcpw",
             ldap.Event.PoolSend 0]⟩) ∧
    "ldap" ∈ [gitlabci.BackendName, ldap.BackendName, simple.BackendName,
      upstream.BackendName] ∧
    unmarshalTag "type" blobLDAP = .ok "ldap" ∧
    (BackendDriver.ldap testLDAPReady).BackendName = "ldap" ∧
    ∃ d0 d1, Backend.UnmarshalJSON.newDriver "ldap" = some d0 ∧
      d0.unmarshal testLib blobLDAP = .ok d1 ∧
      d1.Validate testNet ⟨0, []⟩ =
        some (none, .ldap testLDAPReady,
          ⟨1, [ldap.Event.Dial "ldap.example.com:389", ldap.Event.Bind 0 "cn=svc" "svcpw",
               ldap.Event.PoolSend 0]⟩) :=
  ⟨rfl,
    (unmarshal_resolves testLib testNet blobLDAP ⟨0, []⟩).1
      { Type_ := "ldap", driver := .ldap testLDAPReady } _ rfl⟩

/-! ### The default failure handler -/

/-- Claim C5, evaluated at a chain without a configured failure handler.
`Failure.Validate` puts the status handler with code 403 into its receiver, but
`Reauth.Validate` has a value receiver: it validates a copy of the chain and
returns nil, and the chain itself still has the nil driver. When every backend
then returns the empty identity, `Reauth.Authenticate` calls `Handle` on the nil
driver and panics; no status is written. Had the default been stored, the
response would carry 403. -/
theorem validate_loses_default :
    unconfigured.Failure = { Mode := "", driver := none } ∧
    Reauth.Validate stubOps unconfigured 0 = (none, 0) ∧
    unconfigured.Failure.Validate =
      (none, { Mode := "status", driver := some (.status { Code := 403 }) }) ∧
    declines stubOps {} unconfigured.Backends 0 ∧
    Reauth.Authenticate stubOps testLib unconfigured {} {} 0 = none ∧
    (Reauth.Authenticate stubOps testLib
        { unconfigured with Failure := unconfigured.Failure.Validate.2 } {} {} 0).map
        (fun r => (r.ok, r.err, r.w.WriteHeader)) = some (false, none, [403]) := by
  refine ⟨rfl, rfl, rfl, ⟨rfl, trivial⟩, rfl, rfl⟩

/-! ### The dial of the directory client -/

/-- A byte that does not occur has no first index. -/
theorem indexByte_none (s : List Char) (c : Char) (h : c ∉ s) : indexByte s c = none := by
  induction s with
  | nil => rfl
  | cons x xs ih =>
    simp only [List.mem_cons, not_or] at h
    have hx : ¬ x = c := fun e => h.1 e.symm
    simp [indexByte, hx, ih h.2]

/-- A byte that does not occur has no last index. -/
theorem lastIndexByte_none (s : List Char) (c : Char) (h : c ∉ s) : lastIndexByte s c = none := by
  induction s with
  | nil => rfl
  | cons x xs ih =>
    simp only [List.mem_cons, not_or] at h
    have hx : ¬ x = c := fun e => h.1 e.symm
    simp [lastIndexByte, hx, ih h.2]

/-- The last index of a byte followed by none of its kind. -/
theorem lastIndexByte_append (a b : List Char) (c : Char) (h : c ∉ b) :
    lastIndexByte (a ++ c :: b) c = some a.length := by
  induction a with
  | nil => simp [lastIndexByte, lastIndexByte_none b c h]
  | cons x xs ih => simp [lastIndexByte, ih]

/-- On a host and a port without colons and brackets, joined by a colon,
`SplitHostPort` returns the two. -/
theorem splitHostPort_join (host port : String)
    (h1 : ':' ∉ host.data) (h2 : '[' ∉ host.data) (h3 : ']' ∉ host.data)
    (p1 : ':' ∉ port.data) (p2 : '[' ∉ port.data) (p3 : ']' ∉ port.data) :
    SplitHostPort (host ++ ":" ++ port) = (host, port, none) := by
  have hd : (host ++ ":" ++ port).data = host.data ++ ':' :: port.data := by
    simp [String.data_append]
  have hhead : (host.data ++ ':' :: port.data).head? ≠ some '[' := by
    cases hh : host.data with
    | nil => simp
    | cons x xs =>
      simp only [List.cons_append, List.head?_cons, ne_eq, Option.some.injEq]
      intro e
      apply h2
      rw [hh, e]
      exact List.mem_cons_self _ _
  have hb1 : '[' ∉ host.data ++ ':' :: port.data := by
    simp [h2, p2]
  have hb2 : ']' ∉ host.data ++ ':' :: port.data := by
    simp [h3, p3]
  unfold SplitHostPort
  simp only [hd, lastIndexByte_append _ _ _ p1, hhead, if_false]
  have hdrop : List.drop (host.length + 1) (host.data ++ ':' :: port.data) = port.data := by
    show List.drop (host.data.length + 1) (host.data ++ ':' :: port.data) = port.data
    rw [List.drop_append_eq_append_drop]
    simp
  simp [List.take_left', indexByte_none _ _ h1, indexByte_none _ _ hb1, indexByte_none _ _ hb2,
    hdrop]

namespace ldap

/-- With a nil pool `getConnection` is the fresh dial. -/
theorem getConnection_nil {W : Type} (net : Net W) (h : LDAP) (s : World W)
    (hp : h.pool = none) :
    h.getConnection net s = LDAP.getConnection.fresh net h s := by
  unfold LDAP.getConnection
  split
  · rename_i heq
    rw [hp] at heq
    simp at heq
  · rfl

/-- A fresh dial starts with the dial of the target of the URL. -/
theorem fresh_trace {W : Type} (net : Net W) (h : LDAP) (u : URL) (s : World W)
    (hu : h.URL = some u) :
    ∃ out, LDAP.getConnection.fresh net h s = some out ∧
      (s.trace ++
        [if (LDAP.getConnection.target u).1
          then Event.DialTLS (LDAP.getConnection.target u).2 h.InsecureSkipVerify
          else Event.Dial (LDAP.getConnection.target u).2]) <+: out.2.2.trace := by
  unfold LDAP.getConnection.fresh
  simp only [hu]
  split
  · exact ⟨_, rfl, List.prefix_refl _⟩
  · split
    · refine ⟨_, rfl, ?_⟩
      by_cases hT : h.TLS <;> simp [hT]
    · split
      · refine ⟨_, rfl, ?_⟩
        by_cases hT : h.TLS <;> simp [hT]
      · refine ⟨_, rfl, ?_⟩
        by_cases hT : h.TLS <;> simp [hT]

/-- The transport of a fresh dial. When no pooled connection is available,
`getConnection` first dials the target of the configured URL: over implicit TLS
exactly when the scheme is not "ldap" and the port is 636 or 3269 or the scheme
is "ldaps", in plaintext otherwise; to the port of the URL, or, when that is
empty or "0", to 636 under implicit TLS and 389 otherwise. Host and port are
the two strings that `net.SplitHostPort` returns for the host of the URL. -/
theorem fresh_dial_transport {W : Type} (net : Net W) (h : LDAP) (u : URL) (s : World W)
    (hu : h.URL = some u)
    (hp : h.pool = none ∨ ∃ n, h.pool = some { cap := n, buf := [] }) :
    (∃ out, h.getConnection net s = some out ∧
      (s.trace ++
        [if (LDAP.getConnection.target u).1
          then Event.DialTLS (LDAP.getConnection.target u).2 h.InsecureSkipVerify
          else Event.Dial (LDAP.getConnection.target u).2]) <+: out.2.2.trace) ∧
    ((LDAP.getConnection.target u).1 = true ↔
      u.Scheme ≠ "ldap" ∧
        ((SplitHostPort u.Host).2.1 = "636" ∨ (SplitHostPort u.Host).2.1 = "3269" ∨
          u.Scheme = "ldaps")) ∧
    (((SplitHostPort u.Host).2.1 = "" ∨ (SplitHostPort u.Host).2.1 = "0") →
      (LDAP.getConnection.target u).2 =
        (SplitHostPort u.Host).1 ++ ":" ++
          (if (LDAP.getConnection.target u).1 then "636" else "389")) ∧
    (¬ ((SplitHostPort u.Host).2.1 = "" ∨ (SplitHostPort u.Host).2.1 = "0") →
      (LDAP.getConnection.target u).2 =
        (SplitHostPort u.Host).1 ++ ":" ++ (SplitHostPort u.Host).2.1) := by
  refine ⟨?_, ?_, ?_, ?_⟩
  · have hg : h.getConnection net s = LDAP.getConnection.fresh net h s := by
      rcases hp with hp | ⟨n, hp⟩
      · exact getConnection_nil net h s hp
      · exact getConnection_empty net h s n hp
    rw [hg]
    exact fresh_trace net h u s hu
  · unfold LDAP.getConnection.target
    by_cases hs : u.Scheme = "ldap"
    · simp [hs]
    · simp [hs]
  · intro hport
    unfold LDAP.getConnection.target
    simp only [hport, if_true]
  · intro hport
    unfold LDAP.getConnection.target
    simp only [hport, if_false]

theorem fresh_dial_transport_witness :
    testLDAP.URL = some { Scheme := "ldap", Host := "ldap.example.com:389" } ∧
    (testLDAP.pool = none ∨ ∃ n, testLDAP.pool = some { cap := n, buf := [] }) ∧
    (LDAP.getConnection.target { Scheme := "ldap", Host := "ldap.example.com:389" }).1 = false ∧
    (LDAP.getConnection.target { Scheme := "ldaps", Host := "ldap.example.com:0" }) =
      (true, "ldap.example.com:636") ∧
    ∃ out, testLDAP.getConnection testNet ⟨0, []⟩ = some out ∧
      [Event.Dial "ldap.example.com:389"] <+: out.2.2.trace :=
  ⟨rfl, Or.inl rfl, by decide, by decide,
    (fresh_dial_transport testNet testLDAP _ ⟨0, []⟩ rfl (Or.inl rfl)).1⟩

/-- The host of a fresh dial. When the host of the URL is a host and a port
joined by a colon, neither with a colon or a bracket in it, the address dialed
is that host with that port, or with the default port when the port is empty or
"0". -/
theorem dial_target_keeps_host (scheme host port : String)
    (h1 : ':' ∉ host.data) (h2 : '[' ∉ host.data) (h3 : ']' ∉ host.data)
    (p1 : ':' ∉ port.data) (p2 : '[' ∉ port.data) (p3 : ']' ∉ port.data) :
    (LDAP.getConnection.target { Scheme := scheme, Host := host ++ ":" ++ port }).2 =
      host ++ ":" ++
        (if port = "" ∨ port = "0" then
          (if (LDAP.getConnection.target { Scheme := scheme, Host := host ++ ":" ++ port }).1
            then "636" else "389")
         else port) := by
  unfold LDAP.getConnection.target
  simp only [splitHostPort_join host port h1 h2 h3 p1 p2 p3]

theorem dial_target_keeps_host_witness :
    ':' ∉ "dc.example.com".data ∧ '[' ∉ "dc.example.com".data ∧ ']' ∉ "dc.example.com".data ∧
    ':' ∉ "".data ∧ '[' ∉ "".data ∧ ']' ∉ "".data ∧
    (LDAP.getConnection.target { Scheme := "ldaps", Host := "dc.example.com" ++ ":" ++ "" }).2 =
      "dc.example.com" ++ ":" ++
        (if "" = "" ∨ "" = "0" then
          (if (LDAP.getConnection.target
                { Scheme := "ldaps", Host := "dc.example.com" ++ ":" ++ "" }).1
            then "636" else "389")
         else "") :=
  ⟨by decide, by decide, by decide, by decide, by decide, by decide,
    dial_target_keeps_host "ldaps" "dc.example.com" ""
      (by decide) (by decide) (by decide) (by decide) (by decide) (by decide)⟩

end ldap


/-! ### The stock providers -/

/-- Claim C14. In plain mode (`UseBcrypt` false) `Simple.Authenticate` returns
the user name and no error when the request carries basic-auth credentials
whose user name is a key of the map and whose password is equal to the stored
secret; in every other case it returns the empty identity and no error; it
never returns an error. Equality is that of strings, so it is exact. -/
theorem simple_plain_exact (compare : String → String → Option Error) (h : simple.Simple)
    (r : Request) (hplain : h.UseBcrypt = false) :
    (∀ u p, r.BasicAuth = some (u, p) → h.Credentials.lookup u = some p →
      h.Authenticate compare r = (u, none)) ∧
    ((¬ ∃ u p, r.BasicAuth = some (u, p) ∧ h.Credentials.lookup u = some p) →
      h.Authenticate compare r = ("", none)) ∧
    (h.Authenticate compare r).2 = none := by
  refine ⟨?_, ?_, ?_⟩
  · intro u p hr hl
    simp [simple.Simple.Authenticate, hr, hl, hplain]
  · intro hn
    cases hr : r.BasicAuth with
    | none => simp [simple.Simple.Authenticate, hr]
    | some c =>
      obtain ⟨un, pw⟩ := c
      cases hl : h.Credentials.lookup un with
      | none => simp [simple.Simple.Authenticate, hr, hl]
      | some p =>
        have hne : ¬ p = pw := by
          intro e
          exact hn ⟨un, pw, hr, by rw [hl, e]⟩
        simp [simple.Simple.Authenticate, hr, hl, hplain, hne]
  · cases hr : r.BasicAuth with
    | none => simp [simple.Simple.Authenticate, hr]
    | some c =>
      obtain ⟨un, pw⟩ := c
      cases hl : h.Credentials.lookup un with
      | none => simp [simple.Simple.Authenticate, hr, hl]
      | some p =>
        by_cases e : p = pw <;> simp [simple.Simple.Authenticate, hr, hl, hplain, e]

theorem simple_plain_exact_witness :
    testSimple.UseBcrypt = false ∧
    testSimple.Authenticate testCompare (testRequest "username" "password") =
      ("username", none) ∧
    testSimple.Authenticate testCompare (testRequest "username" "Password") = ("", none) ∧
    testSimple.Authenticate testCompare (testRequest "Username" "password") = ("", none) :=
  ⟨rfl,
    (simple_plain_exact testCompare testSimple (testRequest "username" "password") rfl).1
      "username" "password" rfl rfl,
    (simple_plain_exact testCompare testSimple (testRequest "username" "Password") rfl).2.1
      (by rintro ⟨u, p, h1, h2⟩; cases h1; simp [testSimple, List.lookup] at h2),
    (simple_plain_exact testCompare testSimple (testRequest "Username" "password") rfl).2.1
      (by rintro ⟨u, p, h1, h2⟩; cases h1; simp [testSimple, List.lookup] at h2)⟩

/-- Claim C12 as stated fails: the upstream probe with `pass_cookies` set sends
its request also for a request without basic-auth credentials, and returns the
error of the call when the upstream is down. -/
theorem upstream_cookies_error :
    ({} : Request).BasicAuth = none ∧
    testUpstreamDown.Validate = none ∧
    testUpstreamDown.Authenticate testRemote testLib {} 0 =
      some (("", some (Error.Lib "dial tcp: connection refused")), 1) ∧
    testUpstreamDown.Authenticate testRemote testLib {} 0 ≠ some (("", none), 0) := by
  refine ⟨rfl, rfl, rfl, by decide⟩

/-- Claim C12, amended. For a request without basic-auth credentials the
credential table, the directory client and the token probe return the empty
identity and no error for every configuration, and leave the world as it is;
so does the upstream probe for every configuration with `pass_cookies` unset.
With `pass_cookies` set (and a URL) the upstream probe builds and sends its
request: it returns the error of `http.NewRequest` or of the call when there is
one, and the empty identity and no error for every response. -/
theorem no_credentials_declines {W1 W2 : Type} (compare : String → String → Option Error)
    (net : ldap.Net W1) (remote : http.Remote W2) (lib : Lib) (r : Request)
    (hno : r.BasicAuth = none) :
    (∀ h : simple.Simple, h.Authenticate compare r = ("", none)) ∧
    (∀ (h : ldap.LDAP) (s : ldap.World W1), h.Authenticate net r s = some (("", none), h, s)) ∧
    (∀ (h : gitlabci.GitlabCI) (s : W2), h.Authenticate remote lib r s = some (("", none), s)) ∧
    (∀ (h : upstream.Upstream) (s : W2), h.PassCookies = false →
      h.Authenticate remote lib r s = some (("", none), s)) ∧
    (∀ (h : upstream.Upstream) (s : W2) (u : URL), h.PassCookies = true → h.URL = some u →
      (∀ e, remote.NewRequest "GET" (lib.URLString u) = some e →
        h.Authenticate remote lib r s = some (("", some e), s)) ∧
      (remote.NewRequest "GET" (lib.URLString u) = none →
        ∀ out,
          out = remote.Do
            { Timeout := h.Timeout, noRedirects := !h.FollowRedirects,
              InsecureSkipVerify := decide (u.Scheme = "https") && h.InsecureSkipVerify }
            (h.copyRequest remote.CanonicalHeaderKey r
              { Method := "GET", URL := lib.URLString u }) s →
          (∀ e, out.1 = .error e →
            h.Authenticate remote lib r s = some (("", some e), out.2)) ∧
          (∀ resp, out.1 = .ok resp →
            h.Authenticate remote lib r s = some (("", none), out.2)))) := by
  refine ⟨?_, ?_, ?_, ?_, ?_⟩
  · intro h
    simp [simple.Simple.Authenticate, hno]
  · intro h s
    simp [ldap.LDAP.Authenticate, hno]
  · intro h s
    simp [gitlabci.GitlabCI.Authenticate, hno]
  · intro h s hp
    simp [upstream.Upstream.Authenticate, hno, hp]
  · intro h s u hp hu
    refine ⟨?_, ?_⟩
    · intro e he
      simp [upstream.Upstream.Authenticate, hno, hp, hu, he]
    · intro hreq out hout
      subst hout
      refine ⟨?_, ?_⟩
      · intro e he
        simp only [upstream.Upstream.Authenticate, hno, hp, hu, hreq]
        simp [he]
      · intro resp he
        simp only [upstream.Upstream.Authenticate, hno, hp, hu, hreq]
        simp only [he]
        by_cases h200 : resp.StatusCode = 200
        · cases hm : h.Match with
          | none => simp [h200]
          | some m =>
            by_cases hmatch : remote.MatchString m resp.RequestURL = true <;>
              simp [h200, hmatch]
        · simp [h200]

theorem no_credentials_declines_witness :
    ({} : Request).BasicAuth = none ∧
    testSimple.Authenticate testCompare {} = ("", none) ∧
    testLDAPReady.Authenticate testNet {} ⟨1, []⟩ = some (("", none), testLDAPReady, ⟨1, []⟩) ∧
    testGitlabCI.Authenticate testRemote testLib {} 0 = some (("", none), 0) ∧
    testUpstream.Authenticate testRemote testLib {} 0 = some (("", none), 0) :=
  ⟨rfl,
    (no_credentials_declines testCompare testNet testRemote testLib {} rfl).1 testSimple,
    (no_credentials_declines testCompare testNet testRemote testLib {} rfl).2.1
      testLDAPReady ⟨1, []⟩,
    (no_credentials_declines testCompare testNet testRemote testLib {} rfl).2.2.1
      testGitlabCI 0,
    (no_credentials_declines testCompare testNet testRemote testLib {} rfl).2.2.2.1
      testUpstream 0 rfl⟩

/-- Claim C13 as stated fails: the token probe returns an error, not only an
empty identity, when the remote service answers with a status other than 200. -/
theorem gitlabci_status_error :
    testGitlabCI.Validate = none ∧
    testGitlabCI.Authenticate testRemote testLib (testRequest "group/project" "wrong") 0 =
      some (("", some (Error.Errorf "unexpected status code from gitlabci: %d (%s)"
        ["401", "401 Unauthorized"])), 1) ∧
    (testGitlabCI.Authenticate testRemote testLib (testRequest "group/project" "wrong") 0).map
      (fun out => out.1.2) ≠ some none := by
  refine ⟨rfl, rfl, by decide⟩

/-- Claim C13, amended. For a request with basic-auth credentials `(un, pw)`:
the credential table never returns an error, and returns the empty identity
when the stored secret of `un` is missing or does not match; the directory
client, once a connection is acquired and the search has succeeded, returns the
empty identity and no error for zero entries and for one entry whose bind fails
with result code 49; the upstream probe returns the empty identity and no error
for a response whose status is not 200; the token probe returns, for a response
whose status is not 200, the empty identity and the error "unexpected status
code from gitlabci". -/
theorem wrong_credentials_outcome {W1 W2 : Type} (compare : String → String → Option Error)
    (net : ldap.Net W1) (remote : http.Remote W2) (lib : Lib) (r : Request)
    (un pw : String) (hcred : r.BasicAuth = some (un, pw)) :
    (∀ h : simple.Simple,
      (h.Authenticate compare r).2 = none ∧
      ((∀ stored, h.Credentials.lookup un = some stored →
          if h.UseBcrypt then compare stored pw ≠ none else stored ≠ pw) →
        h.Authenticate compare r = ("", none))) ∧
    (∀ (h h1 : ldap.LDAP) (s s1 : ldap.World W1) (c : ldap.Client)
        (entries : List ldap.Entry) (w2 : W1),
      h.getConnection net s = some (.ok c, h1, s1) →
      net.Search c (h.searchRequest un) s1.net = (.ok entries, w2) →
      (entries = [] → (h.Authenticate net r s).map (fun out => out.1) = some ("", none)) ∧
      (∀ entry err, entries = [entry] → (net.Bind c entry.DN pw w2).1 = some err →
        ldap.IsErrorWithCode err ldap.LDAPResultInvalidCredentials = true →
        (h.Authenticate net r s).map (fun out => out.1) = some ("", none))) ∧
    (∀ (h : upstream.Upstream) (s s1 : W2) (u : URL) (resp : http.Response),
      h.URL = some u → remote.NewRequest "GET" (lib.URLString u) = none →
      remote.Do
          { Timeout := h.Timeout, noRedirects := !h.FollowRedirects,
            InsecureSkipVerify := decide (u.Scheme = "https") && h.InsecureSkipVerify }
          (h.copyRequest remote.CanonicalHeaderKey r
            { Method := "GET", URL := lib.URLString u, BasicAuth := some (un, pw) }) s =
        (.ok resp, s1) →
      resp.StatusCode ≠ 200 →
      h.Authenticate remote lib r s = some (("", none), s1)) ∧
    (∀ (h : gitlabci.GitlabCI) (s s1 : W2) (u repo : URL) (resp : http.Response),
      h.URL = some u →
      remote.URLParse u (un ++ ".git/info/refs?service=git-upload-pack") = .ok repo →
      remote.NewRequest "GET" (lib.URLString repo) = none →
      remote.Do
          { Timeout := h.Timeout, noRedirects := true,
            InsecureSkipVerify := decide (repo.Scheme = "https") && h.InsecureSkipVerify }
          { Method := "GET", URL := lib.URLString repo, BasicAuth := some (h.Username, pw) } s =
        (.ok resp, s1) →
      resp.StatusCode ≠ 200 →
      h.Authenticate remote lib r s =
        some (("", some (Error.Errorf "unexpected status code from gitlabci: %d (%s)"
          [toString resp.StatusCode, resp.Status])), s1)) := by
  refine ⟨?_, ?_, ?_, ?_⟩
  · intro h
    cases hl : h.Credentials.lookup un with
    | none => simp [simple.Simple.Authenticate, hcred, hl]
    | some p =>
      by_cases hb : h.UseBcrypt = true
      · by_cases hc : compare p pw = none
        · simp [simple.Simple.Authenticate, hcred, hl, hb, hc]
        · simp [simple.Simple.Authenticate, hcred, hl, hb, hc]
      · by_cases e : p = pw
        · simp [simple.Simple.Authenticate, hcred, hl, hb, e]
        · simp [simple.Simple.Authenticate, hcred, hl, hb, e]
  · intro h h1 s s1 c entries w2 hconn hsearch
    have hcfg := ldap.getConnection_config net h s _ h1 s1 hconn
    have hsr : h1.searchRequest un = h.searchRequest un := by
      rw [hcfg]; exact ldap.searchRequest_pool h _ un
    refine ⟨?_, ?_⟩
    · intro he
      subst he
      simp [ldap.LDAP.Authenticate, hcred, hconn, ldap.LDAP.Authenticate.body, hsr, hsearch]
    · intro entry err he hb hcode
      subst he
      simp [ldap.LDAP.Authenticate, hcred, hconn, ldap.LDAP.Authenticate.body, hsr, hsearch,
        hb, hcode]
  · intro h s s1 u resp hu hreq hdo h200
    simp [upstream.Upstream.Authenticate, hcred, hu, hreq, hdo, h200]
  · intro h s s1 u repo resp hu hparse hreq hdo h200
    simp [gitlabci.GitlabCI.Authenticate, hcred, hu, hparse, hreq, hdo, h200]

theorem wrong_credentials_outcome_witness :
    (testRequest "username" "wrong").BasicAuth = some ("username", "wrong") ∧
    testSimple.Authenticate testCompare (testRequest "username" "wrong") = ("", none) :=
  ⟨rfl,
    ((wrong_credentials_outcome testCompare testNet testRemote testLib
      (testRequest "username" "wrong") "username" "wrong" rfl).1 testSimple).2
      (by intro stored hs; cases hs; decide)⟩


/-! ### The pool of the directory client -/

namespace ldap

/-- The dials of two traces add up. -/
theorem dials_append (a b : List Event) : dials (a ++ b) = dials a + dials b := by
  induction a with
  | nil => simp [dials]
  | cons e t ih =>
    cases e <;> simp [dials, ih] <;> omega

/-- The dials of a trace are those of its head and those of its tail. -/
theorem dials_cons (e : Event) (t : List Event) : dials (e :: t) = dials [e] + dials t :=
  dials_append [e] t

/-- A fresh dial adds a trace with exactly one dial and no send to the pool,
and the connection it returns is the one the dial returned. -/
theorem fresh_tail {W : Type} (net : Net W) (h : LDAP) (u : URL) (s : World W)
    (hu : h.URL = some u) :
    ∃ out tail, LDAP.getConnection.fresh net h s = some out ∧ out.2.1 = h ∧
      out.2.2.trace = s.trace ++ tail ∧ dials tail = 1 ∧ (∀ c, Event.PoolSend c ∉ tail) ∧
      (∀ c, out.1 = .ok c →
        (if (LDAP.getConnection.target u).1
          then net.DialTLS (LDAP.getConnection.target u).2 h.InsecureSkipVerify s.net
          else net.Dial (LDAP.getConnection.target u).2 s.net).1 = .ok c) := by
  generalize hdial :
    (if (LDAP.getConnection.target u).1
      then net.DialTLS (LDAP.getConnection.target u).2 h.InsecureSkipVerify s.net
      else net.Dial (LDAP.getConnection.target u).2 s.net) = dialed
  generalize hev :
    (if (LDAP.getConnection.target u).1
      then Event.DialTLS (LDAP.getConnection.target u).2 h.InsecureSkipVerify
      else Event.Dial (LDAP.getConnection.target u).2) = ev
  have hdev : dials [ev] = 1 := by
    rw [← hev]; split <;> rfl
  have hnev : ∀ c, Event.PoolSend c ≠ ev := by
    intro c; rw [← hev]; split <;> simp
  obtain ⟨d1, d2⟩ := dialed
  cases d1 with
  | error err =>
    simp only [LDAP.getConnection.fresh, hu, hdial, hev]
    refine ⟨_, [ev], rfl, rfl, rfl, hdev, ?_, ?_⟩
    · intro c; simp [hnev c]
    · intro c hc; simp at hc
  | ok c0 =>
    cases hT : h.TLS with
    | false =>
      cases hb : (net.Bind c0 h.BindDN h.BindPassword d2).1 with
      | none =>
        simp only [LDAP.getConnection.fresh, hu, hdial, hev, hT, Bool.false_eq_true, if_false,
            if_true, hb]
        refine ⟨_, [ev, Event.Bind c0 h.BindDN h.BindPassword], rfl, rfl, by simp, ?_, ?_, ?_⟩
        · rw [dials_cons, hdev]; rfl
        · intro c; simp [hnev c]
        · intro c hc; simp only [Except.ok.injEq] at hc; rw [hc]
      | some err =>
        simp only [LDAP.getConnection.fresh, hu, hdial, hev, hT, Bool.false_eq_true, if_false,
            if_true, hb]
        refine ⟨_, [ev, Event.Bind c0 h.BindDN h.BindPassword, Event.Close c0],
          rfl, rfl, by simp, ?_, ?_, ?_⟩
        · rw [dials_cons, hdev]; rfl
        · intro c; simp [hnev c]
        · intro c hc; simp at hc
    | true =>
      cases hs : (net.StartTLS c0 h.InsecureSkipVerify d2).1 with
      | some err =>
        simp only [LDAP.getConnection.fresh, hu, hdial, hev, hT, Bool.false_eq_true, if_false,
            if_true, hs]
        refine ⟨_, [ev, Event.StartTLS c0 h.InsecureSkipVerify, Event.Close c0],
          rfl, rfl, by simp, ?_, ?_, ?_⟩
        · rw [dials_cons, hdev]; rfl
        · intro c; simp [hnev c]
        · intro c hc; simp at hc
      | none =>
        cases hb : (net.Bind c0 h.BindDN h.BindPassword
            (net.StartTLS c0 h.InsecureSkipVerify d2).2).1 with
        | none =>
          simp only [LDAP.getConnection.fresh, hu, hdial, hev, hT, Bool.false_eq_true, if_false,
            if_true, hs, hb]
          refine ⟨_, [ev, Event.StartTLS c0 h.InsecureSkipVerify,
            Event.Bind c0 h.BindDN h.BindPassword], rfl, rfl, by simp, ?_, ?_, ?_⟩
          · rw [dials_cons, hdev]; rfl
          · intro c; simp [hnev c]
          · intro c hc; simp only [Except.ok.injEq] at hc; rw [hc]
        | some err =>
          simp only [LDAP.getConnection.fresh, hu, hdial, hev, hT, Bool.false_eq_true, if_false,
            if_true, hs, hb]
          refine ⟨_, [ev, Event.StartTLS c0 h.InsecureSkipVerify,
            Event.Bind c0 h.BindDN h.BindPassword, Event.Close c0], rfl, rfl, by simp, ?_, ?_, ?_⟩
          · rw [dials_cons, hdev]; rfl
          · intro c; simp [hnev c]
          · intro c hc; simp at hc


/-- What a successful `Validate` leaves behind: the configuration with a pool
that holds the one connection of a fresh dial, and a trace with one more dial. -/
theorem validate_ok_state {W : Type} (net : Net W) (h0 h : LDAP) (s0 s : World W)
    (hval : h0.Validate net s0 = some (none, h, s)) :
    ∃ c u, h0.URL = some u ∧
      h = { h0 with pool := some { cap := h0.ConnectionPoolSize.toNat, buf := [c] } } ∧
      dials s.trace = dials s0.trace + 1 := by
  unfold LDAP.Validate at hval
  simp only at hval
  split at hval
  · simp at hval
  · split at hval
    · simp at hval
    · split at hval
      · simp at hval
      · rename_i hm ht hc
        have hU : h0.URL ≠ none := by
          intro hU
          apply hm
          simp [LDAP.Validate.missing, hU]
        obtain ⟨u, hu⟩ := Option.ne_none_iff_exists'.mp hU
        have hpos : 0 < h0.ConnectionPoolSize.toNat := by omega
        have hmk : net.makeChan h0.ConnectionPoolSize = true := by
          cases hk : net.makeChan h0.ConnectionPoolSize
          · simp [hk] at hval
          · rfl
        simp only [hmk, Bool.true_eq_false, if_false] at hval
        rw [getConnection_empty net _ s0 _ rfl] at hval
        obtain ⟨out, tail, hf, hh, htr, hd, _, _⟩ :=
          fresh_tail net
            { h0 with pool := some { cap := h0.ConnectionPoolSize.toNat, buf := [] } } u s0 hu
        rw [hf] at hval
        obtain ⟨r, h2, s2⟩ := out
        simp only at hh htr
        subst hh
        cases r with
        | error e => simp at hval
        | ok c =>
          simp only [LDAP.stashConnection, List.length_nil, hpos, if_true, List.nil_append,
            Option.some.injEq, Prod.mk.injEq, true_and] at hval
          obtain ⟨hh, hs⟩ := hval
          refine ⟨c, u, hu, hh.symm, ?_⟩
          rw [← hs]
          simp only [htr, dials_append, hd]
          rfl

/-- One acquire-then-release pair on a pool of size 1 that holds `c`, when the
bind of `c` as the service succeeds: the client is as before, and the trace has
the receive, the bind and the send. -/
theorem roundTrip_one {W : Type} (net : Net W) (h : LDAP) (c : Client) (s : World W)
    (hp : h.pool = some { cap := 1, buf := [c] })
    (hb : (net.Bind c h.BindDN h.BindPassword s.net).1 = none) :
    roundTrips net 1 h s =
      some (h, { net := (net.Bind c h.BindDN h.BindPassword s.net).2,
                 trace := s.trace ++ [Event.PoolRecv c, Event.Bind c h.BindDN h.BindPassword,
                   Event.PoolSend c] }) := by
  obtain ⟨url, a1, a2, a3, a4, a5, a6, a7, a8, a9, pool⟩ := h
  simp only at hp hb
  subst hp
  simp [roundTrips, LDAP.getConnection, hb, LDAP.stashConnection]

/-- The acquire-then-release pairs of a pool of size 1 that holds `c`, when
the bind of `c` as the service keeps succeeding. -/
theorem roundTrips_rebinds {W : Type} (net : Net W) (h : LDAP) (c : Client)
    (hp : h.pool = some { cap := 1, buf := [c] }) (n : Nat) (s : World W)
    (hb : rebinds net h.BindDN h.BindPassword c n s.net) :
    ∃ s1, roundTrips net n h s = some (h, s1) ∧
      s1.trace = s.trace ++
        (List.replicate n [Event.PoolRecv c, Event.Bind c h.BindDN h.BindPassword,
          Event.PoolSend c]).flatten ∧
      dials s1.trace = dials s.trace := by
  induction n generalizing s with
  | zero => exact ⟨s, rfl, by simp, rfl⟩
  | succ n ih =>
    obtain ⟨hb1, hb2⟩ := hb
    have h1 := roundTrip_one net h c s hp hb1
    obtain ⟨s1, hr, htr, hd⟩ := ih
      { net := (net.Bind c h.BindDN h.BindPassword s.net).2,
        trace := s.trace ++ [Event.PoolRecv c, Event.Bind c h.BindDN h.BindPassword,
          Event.PoolSend c] } hb2
    refine ⟨s1, ?_, ?_, ?_⟩
    · obtain ⟨url, a1, a2, a3, a4, a5, a6, a7, a8, a9, pool⟩ := h
      simp only at hp hb1 hr
      subst hp
      simp only [roundTrips, LDAP.getConnection, hb1, LDAP.stashConnection, List.length_nil,
        Nat.lt_one_iff, if_true, List.nil_append, List.append_assoc, List.cons_append]
      exact hr
    · rw [htr]
      simp [List.replicate_succ]
    · rw [hd, dials_append]
      rfl

/-- A pooled connection whose bind as the service fails is closed, and
`getConnection` goes on with a fresh dial on the pool without it. -/
theorem getConnection_stale {W : Type} (net : Net W) (h : LDAP) (c : Client)
    (rest : List Client) (n : Nat) (s : World W) (e : Error)
    (hp : h.pool = some { cap := n, buf := c :: rest })
    (hb : (net.Bind c h.BindDN h.BindPassword s.net).1 = some e) :
    h.getConnection net s =
      LDAP.getConnection.fresh net { h with pool := some { cap := n, buf := rest } }
        { net := net.Close c (net.Bind c h.BindDN h.BindPassword s.net).2,
          trace := s.trace ++ [Event.PoolRecv c, Event.Bind c h.BindDN h.BindPassword,
            Event.Close c] } := by
  obtain ⟨url, a1, a2, a3, a4, a5, a6, a7, a8, a9, pool⟩ := h
  simp only at hp hb
  subst hp
  simp [LDAP.getConnection, hb]


/-- Claim C11. Let a client with pool size 1 be validated. Then its pool holds
exactly one connection `c`, and validation made exactly one dial. For every
`N ≥ 1`, when the bind of `c` as the service succeeds `N` times in a row, `N`
acquire-then-release pairs all succeed, leave the client as it was (the pool
holds `c`), and add to the trace only receives, binds and sends: no dial. And
whenever the pool holds one connection whose bind as the service fails,
`getConnection` closes that connection, leaves the pool empty and makes exactly
one dial with no send to the pool; a connection it returns is the one that dial
returned, and releasing it leaves exactly that connection in the pool. -/
theorem pool_round_trip {W : Type} (net : Net W) (h0 h : LDAP) (s0 s : World W)
    (hsize : h0.ConnectionPoolSize = 1)
    (hval : h0.Validate net s0 = some (none, h, s)) :
    ∃ c u, h.URL = some u ∧ h.pool = some { cap := 1, buf := [c] } ∧
      dials s.trace = dials s0.trace + 1 ∧
      (∀ N, 1 ≤ N → rebinds net h.BindDN h.BindPassword c N s.net →
        ∃ s1, roundTrips net N h s = some (h, s1) ∧
          s1.trace = s.trace ++
            (List.replicate N [Event.PoolRecv c, Event.Bind c h.BindDN h.BindPassword,
              Event.PoolSend c]).flatten ∧
          dials s1.trace = dials s.trace) ∧
      (∀ (c1 : Client) (s1 : World W) (e : Error),
        (net.Bind c1 h.BindDN h.BindPassword s1.net).1 = some e →
        ∃ out tail,
          LDAP.getConnection net { h with pool := some { cap := 1, buf := [c1] } } s1 =
            some out ∧
          out.2.1 = { h with pool := some { cap := 1, buf := [] } } ∧
          out.2.2.trace =
            s1.trace ++ [Event.PoolRecv c1, Event.Bind c1 h.BindDN h.BindPassword,
              Event.Close c1] ++ tail ∧
          dials tail = 1 ∧ (∀ x, Event.PoolSend x ∉ tail) ∧
          (∀ x, out.1 = .ok x →
            (if (LDAP.getConnection.target u).1
              then net.DialTLS (LDAP.getConnection.target u).2 h.InsecureSkipVerify
                (net.Close c1 (net.Bind c1 h.BindDN h.BindPassword s1.net).2)
              else net.Dial (LDAP.getConnection.target u).2
                (net.Close c1 (net.Bind c1 h.BindDN h.BindPassword s1.net).2)).1 = .ok x ∧
            (out.2.1.stashConnection net x out.2.2).1 =
              { h with pool := some { cap := 1, buf := [x] } })) := by
  obtain ⟨c, u, hu0, hh, hd⟩ := validate_ok_state net h0 h s0 s hval
  have hone : h0.ConnectionPoolSize.toNat = 1 := by rw [hsize]; rfl
  rw [hone] at hh
  have hu : h.URL = some u := by rw [hh]; exact hu0
  have hp : h.pool = some { cap := 1, buf := [c] } := by rw [hh]
  refine ⟨c, u, hu, hp, hd, ?_, ?_⟩
  · intro N _ hb
    exact roundTrips_rebinds net h c hp N s hb
  · intro c1 s1 e hb
    have hst := getConnection_stale net { h with pool := some { cap := 1, buf := [c1] } } c1 []
      1 s1 e rfl hb
    obtain ⟨out, tail, hf, hk, htr, hdt, hns, hok⟩ :=
      fresh_tail net { h with pool := some { cap := 1, buf := [] } } u
        { net := net.Close c1 (net.Bind c1 h.BindDN h.BindPassword s1.net).2,
          trace := s1.trace ++ [Event.PoolRecv c1, Event.Bind c1 h.BindDN h.BindPassword,
            Event.Close c1] } hu
    refine ⟨out, tail, ?_, hk, htr, hdt, hns, ?_⟩
    · rw [hst]; exact hf
    · intro x hx
      refine ⟨hok x hx, ?_⟩
      rw [hk]
      simp [LDAP.stashConnection]

theorem pool_round_trip_witness :
    testLDAP.ConnectionPoolSize = 1 ∧
    testLDAP.Validate testNet ⟨0, []⟩ =
      some (none, testLDAPReady,
        ⟨1, [Event.Dial "ldap.example.com:389", Event.Bind 0 "cn=svc" "svcpw",
             Event.PoolSend 0]⟩) ∧
    rebinds testNet "cn=svc" "svcpw" 0 3 1 ∧
    testLDAP.Validate agingNet ⟨(0, 0), []⟩ =
      some (none, testLDAPReady,
        ⟨(1, 1), [Event.Dial "ldap.example.com:389", Event.Bind 0 "cn=svc" "svcpw",
                  Event.PoolSend 0]⟩) ∧
    (agingNet.Bind 0 "cn=svc" "svcpw" (1, 1)).1 = some (Error.Lib "connection closed") ∧
    (∃ c u, testLDAPReady.URL = some u ∧ testLDAPReady.pool = some { cap := 1, buf := [c] } ∧
      dials [Event.Dial "ldap.example.com:389", Event.Bind 0 "cn=svc" "svcpw",
        Event.PoolSend 0] = dials [] + 1 ∧
      (∀ N, 1 ≤ N → rebinds testNet testLDAPReady.BindDN testLDAPReady.BindPassword c N 1 →
        ∃ s1, roundTrips testNet N testLDAPReady
            ⟨1, [Event.Dial "ldap.example.com:389", Event.Bind 0 "cn=svc" "svcpw",
                 Event.PoolSend 0]⟩ = some (testLDAPReady, s1) ∧
          s1.trace =
            [Event.Dial "ldap.example.com:389", Event.Bind 0 "cn=svc" "svcpw",
              Event.PoolSend 0] ++
            (List.replicate N [Event.PoolRecv c,
              Event.Bind c testLDAPReady.BindDN testLDAPReady.BindPassword,
              Event.PoolSend c]).flatten ∧
          dials s1.trace =
            dials [Event.Dial "ldap.example.com:389", Event.Bind 0 "cn=svc" "svcpw",
              Event.PoolSend 0])) ∧
    roundTrips testNet 3 testLDAPReady ⟨1, []⟩ =
      some (testLDAPReady,
        ⟨1, [Event.PoolRecv 0, Event.Bind 0 "cn=svc" "svcpw", Event.PoolSend 0,
             Event.PoolRecv 0, Event.Bind 0 "cn=svc" "svcpw", Event.PoolSend 0,
             Event.PoolRecv 0, Event.Bind 0 "cn=svc" "svcpw", Event.PoolSend 0]⟩) ∧
    testLDAPReady.getConnection agingNet ⟨(1, 1), []⟩ =
      some (.ok 1, { testLDAP with pool := some { cap := 1, buf := [] } },
        ⟨(2, 3), [Event.PoolRecv 0, Event.Bind 0 "cn=svc" "svcpw", Event.Close 0,
                  Event.Dial "ldap.example.com:389", Event.Bind 1 "cn=svc" "svcpw"]⟩) := by
  refine ⟨rfl, rfl, ⟨rfl, rfl, rfl, trivial⟩, rfl, rfl, ?_, rfl, rfl⟩
  obtain ⟨c, u, hu, hp, hd, hn, _⟩ := pool_round_trip testNet testLDAP testLDAPReady ⟨0, []⟩
    ⟨1, [Event.Dial "ldap.example.com:389", Event.Bind 0 "cn=svc" "svcpw", Event.PoolSend 0]⟩
    rfl rfl
  exact ⟨c, u, hu, hp, hd, hn⟩

end ldap


/-! ### The redirect -/

/-- Text without an opening brace has no placeholder to replace. -/
theorem replaceAllAux_none (new text : List Char) (h : Char.ofNat 123 ∉ text) :
    replaceAllAux "\x7buri\x7d".data new text 0 = text := by
  induction text with
  | nil => rfl
  | cons c cs ih =>
    simp only [List.mem_cons, not_or] at h
    have hc : ¬ Char.ofNat 123 = c := h.1
    have hp : List.isPrefixOf "\x7buri\x7d".data (c :: cs) = false := by
      show List.isPrefixOf (Char.ofNat 123 :: _) (c :: cs) = false
      simp [List.isPrefixOf, hc]
    rw [replaceAllAux, hp]
    simp [ih h.2]

/-- A text with one placeholder and no other opening brace: the placeholder is
replaced and the rest is kept. -/
theorem replaceAllAux_single (new pre post : List Char) (hpre : Char.ofNat 123 ∉ pre)
    (hpost : Char.ofNat 123 ∉ post) :
    replaceAllAux "\x7buri\x7d".data new (pre ++ "\x7buri\x7d".data ++ post) 0 =
      pre ++ new ++ post := by
  induction pre with
  | nil =>
    show replaceAllAux "\x7buri\x7d".data new
      (Char.ofNat 123 :: 'u' :: 'r' :: 'i' :: Char.ofNat 125 :: post) 0 = [] ++ new ++ post
    have hp : List.isPrefixOf "\x7buri\x7d".data
        (Char.ofNat 123 :: 'u' :: 'r' :: 'i' :: Char.ofNat 125 :: post) = true := by
      show List.isPrefixOf [Char.ofNat 123, 'u', 'r', 'i', Char.ofNat 125] _ = true
      simp [List.isPrefixOf]
    rw [replaceAllAux, hp]
    have hl : "\x7buri\x7d".data.length - 1 = 4 := rfl
    simp only [if_true, hl, replaceAllAux, List.nil_append]
    rw [replaceAllAux_none new post hpost]
  | cons c cs ih =>
    simp only [List.mem_cons, not_or] at hpre
    have hc : ¬ Char.ofNat 123 = c := hpre.1
    have hp : List.isPrefixOf "\x7buri\x7d".data (c :: (cs ++ "\x7buri\x7d".data ++ post)) =
        false := by
      show List.isPrefixOf (Char.ofNat 123 :: _) (c :: _) = false
      simp [List.isPrefixOf, hc]
    simp only [List.cons_append]
    rw [replaceAllAux, hp]
    simp only [Bool.false_eq_true, if_false]
    rw [ih hpre.2]

/-- Function `strings.Replace` on a template with one placeholder and no other
opening brace. -/
theorem stringsReplaceAll_single (pre post x : String) (hpre : Char.ofNat 123 ∉ pre.data)
    (hpost : Char.ofNat 123 ∉ post.data) :
    stringsReplaceAll (pre ++ "\x7buri\x7d" ++ post) "\x7buri\x7d" x = pre ++ x ++ post := by
  unfold stringsReplaceAll
  have hd : (pre ++ "\x7buri\x7d" ++ post).data = pre.data ++ "\x7buri\x7d".data ++ post.data := by
    simp [String.data_append]
  rw [hd, replaceAllAux_single x.data pre.data post.data hpre hpost]
  apply String.ext
  simp [String.data_append]


set_option maxRecDepth 20000 in
/-- Claim C15, as stated, fails: the target "https://auth.example/login?next="
with the placeholder and a request for "/secret?x=1" whose Host is
"app.example", which is not the host of the target. The placeholder is replaced
by the escaped absolute URL "http://app.example/secret?x=1", so the Location
header is not "https://auth.example/login?next=%2Fsecret%3Fx%3D1". -/
theorem redirect_other_host :
    goLib.urlParse "https://auth.example/login?next=\x7buri\x7d" = .ok testTarget ∧
    goLib.URLString testTarget = "https://auth.example/login?next=\x7buri\x7d" ∧
    (testSecretRequest "app.example").RequestURI = "/secret?x=1" ∧
    redirect.Redirect.Handle goLib { URL := some testTarget, Code := 303 } {}
        (testSecretRequest "app.example") =
      some (none,
        { Header := [("Location",
              "https://auth.example/login?next=http%3A%2F%2Fapp.example%2Fsecret%3Fx%3D1"),
            ("Content-Type", "text/html; charset=utf-8")],
          WriteHeader := [303] },
        { testSecretRequest "app.example" with
          URL := { Scheme := "http", Host := "app.example", Path := "/secret",
                   RawQuery := "x=1" } }) ∧
    "https://auth.example/login?next=http%3A%2F%2Fapp.example%2Fsecret%3Fx%3D1" ≠
      "https://auth.example/login?next=%2Fsecret%3Fx%3D1" := by
  refine ⟨by rfl, by rfl, by rfl, by rfl, by decide⟩

/-- Claim C15 (amended). For every target URL, response writer and request,
`Handle` adds the header `Location: l` and calls
`http.Redirect(w, r, l, h.Code)`; it returns nil when that call returns and
panics when it panics. The location `l` is `URL.String()` of the target with
every placeholder replaced by `url.QueryEscape(uri.String())`, where `uri` is
the URL of the request with its scheme and host cleared when the target has no
host or the Host of the request, and otherwise with the Host of the request and
the scheme "http", or "https" under TLS or a header `X-Forwarded-Proto: https`.
For a target text with one placeholder and no other opening brace, `l` is that
text with the placeholder replaced. The code of `NewDriver` is 303. -/
theorem redirect_location (lib : Lib) (h : redirect.Redirect) (target : URL)
    (w : ResponseWriter) (r : Request) (htarget : h.URL = some target) :
    ∃ uri : URL, ∃ l : String,
      h.Handle lib w r =
        (lib.Redirect (w.HeaderAdd "Location" l) { r with URL := uri } l h.Code).map
          (fun w1 => (none, w1, { r with URL := uri })) ∧
      l = stringsReplaceAll (lib.URLString target) "\x7buri\x7d"
            (lib.QueryEscape (lib.URLString uri)) ∧
      (target.Host = "" ∨ target.Host = r.Host →
        uri = { r.URL with Host := "", Scheme := "" }) ∧
      (target.Host ≠ "" ∧ target.Host ≠ r.Host →
        uri = { r.URL with
                Host := r.Host
                Scheme := if r.TLS ∨ EqualFold (headerGet r.Header "X-Forwarded-Proto") "https"
                          then "https" else "http" }) ∧
      (∀ pre post : String, Char.ofNat 123 ∉ pre.data → Char.ofNat 123 ∉ post.data →
        lib.URLString target = pre ++ "\x7buri\x7d" ++ post →
        l = pre ++ lib.QueryEscape (lib.URLString uri) ++ post) ∧
      redirect.NewDriver.Code = 303 := by
  by_cases hc : target.Host ≠ "" ∧ target.Host ≠ r.Host
  · refine ⟨{ r.URL with
        Host := r.Host
        Scheme := if r.TLS ∨ EqualFold (headerGet r.Header "X-Forwarded-Proto") "https"
                  then "https" else "http" }, _, ?_, rfl, ?_, ?_, ?_, rfl⟩
    · simp only [redirect.Redirect.Handle, htarget, if_pos hc]
      cases lib.Redirect _ _ _ h.Code <;> rfl
    · intro hn
      rcases hn with hn | hn
      · exact absurd hn hc.1
      · exact absurd hn hc.2
    · intro _
      rfl
    · intro pre post hpre hpost ht
      rw [ht]
      exact stringsReplaceAll_single pre post _ hpre hpost
  · refine ⟨{ r.URL with Host := "", Scheme := "" }, _, ?_, rfl, ?_, ?_, ?_, rfl⟩
    · simp only [redirect.Redirect.Handle, htarget, if_neg hc]
      cases lib.Redirect _ _ _ h.Code <;> rfl
    · intro _
      rfl
    · intro hn
      exact absurd hn hc
    · intro pre post hpre hpost ht
      rw [ht]
      exact stringsReplaceAll_single pre post _ hpre hpost

set_option maxRecDepth 20000 in
/-- The example of C15 on a request whose Host is the host of the target: the
Location header is "https://auth.example/login?next=%2Fsecret%3Fx%3D1" and the
code is 303, the code of a configuration without one. -/
theorem redirect_location_witness :
    (redirect.Redirect.mk (some testTarget) 303).URL = some testTarget ∧
    Failure.UnmarshalJSON goLib blobRedirect =
      .ok { Mode := "redirect",
            driver := some (.redirect { URL := some testTarget, Code := 303 }) } ∧
    redirect.Redirect.Handle goLib { URL := some testTarget, Code := 303 } {}
        (testSecretRequest "auth.example") =
      some (none,
        { Header := [("Location", "https://auth.example/login?next=%2Fsecret%3Fx%3D1"),
            ("Content-Type", "text/html; charset=utf-8")],
          WriteHeader := [303] },
        testSecretRequest "auth.example") ∧
    ∃ uri : URL, ∃ l : String,
      redirect.Redirect.Handle goLib { URL := some testTarget, Code := 303 } {}
          (testSecretRequest "auth.example") =
        (goLib.Redirect (ResponseWriter.HeaderAdd {} "Location" l)
            { testSecretRequest "auth.example" with URL := uri } l 303).map
          (fun w1 => (none, w1, { testSecretRequest "auth.example" with URL := uri })) ∧
      uri = { Path := "/secret", RawQuery := "x=1" } ∧
      l = "https://auth.example/login?next=%2Fsecret%3Fx%3D1" := by
  refine ⟨rfl, by rfl, by rfl, ?_⟩
  obtain ⟨uri, l, h1, h2, h3, -, -, -⟩ :=
    redirect_location goLib { URL := some testTarget, Code := 303 } testTarget {}
      (testSecretRequest "auth.example") rfl
  have hu : uri = { Path := "/secret", RawQuery := "x=1" } := h3 (Or.inr rfl)
  refine ⟨uri, l, h1, hu, ?_⟩
  rw [h2, hu]
  rfl

end Caddy2Reauth
